import Mathlib

/-!
# Verification of the Megacity LLM-player Action Governor

A shallow embedding of `scripts/llm_player.py` — the stateful filtering,
normalization, admission-control and fallback-generation pipeline that sits
between the LLM proposer and the game backend — together with proofs of the
spec's testable properties.

Conventions of the embedding:
* A Python action dict `{kind: params}` becomes `Action` (a `kind` string plus
  a `Params` record whose fields are `Option`s, mirroring optional dict keys).
* Python floats become `ℚ`; `int()` truncation and `round()` are explicit.
* Python `set`s become `Finset (ℤ × ℤ)`.  Where the source iterates a set in
  unspecified order (`list(s)`), the embedding fixes the sorted order; where
  the source sorts (`sorted(s)`), the same sorted order is used.
* Backend results become `ActResult` (`success` or `error reason`), and the
  mutation of the module-level memory globals becomes explicit state passing
  on `GovState`.
-/

namespace Megacity

/-- Integer grid coordinate, as produced by Python `int(...)` casts. -/
abbrev Coord := ℤ × ℤ

/-- A raw (possibly fractional) coordinate pair as found in proposer JSON. -/
abbrev QCoord := ℚ × ℚ

/-- Python `int()` truncation toward zero on a rational. -/
def truncQ (q : ℚ) : ℤ := if 0 ≤ q then ⌊q⌋ else ⌈q⌉

/-- Truncate both components of a raw coordinate pair (`(int(v[0]), int(v[1]))`). -/
def truncPair (p : QCoord) : Coord := (truncQ p.1, truncQ p.2)

/-- The parameter dict of an action.  Each field models an optional key of the
Python params dict (`start`, `end`, `pos`, `min`, `max`, `road_type`,
`zone_type`, `utility_type`, `service_type` and the four tax-rate keys). -/
structure Params where
  start : Option QCoord := none
  end_ : Option QCoord := none
  pos : Option QCoord := none
  min : Option QCoord := none
  max : Option QCoord := none
  roadType : Option String := none
  zoneType : Option String := none
  utilityType : Option String := none
  serviceType : Option String := none
  residential : Option ℚ := none
  commercial : Option ℚ := none
  industrial : Option ℚ := none
  office : Option ℚ := none
  deriving DecidableEq, Repr

/-- An action dict `{kind: params}` (one top-level key, as the LLM emits). -/
structure Action where
  kind : String
  params : Params
  deriving DecidableEq, Repr

/-- `n` consecutive integers starting at `lo`. -/
def intRangeAux (lo : ℤ) : ℕ → List ℤ
  | 0 => []
  | n + 1 => lo :: intRangeAux (lo + 1) n

/-- Python `range(lo, hi + 1)` over integers, as a list. -/
def intRange (lo hi : ℤ) : List ℤ :=
  intRangeAux lo (hi - lo + 1).toNat

/-- `_action_coords`: all grid coordinate pairs referenced by an action — the
`start`/`end`/`pos`/`min`/`max` fields, plus every interpolated point along an
axis-aligned road line between `start` and `end`. -/
def actionCoords (a : Action) : List Coord :=
  let p := a.params
  let corner : Option QCoord → List Coord := fun v =>
    match v with
    | some q => [truncPair q]
    | none => []
  let base := corner p.start ++ corner p.end_ ++ corner p.pos ++
    corner p.min ++ corner p.max
  let interpolated :=
    match p.start, p.end_ with
    | some s, some e =>
      let x0 := truncQ s.1
      let y0 := truncQ s.2
      let x1 := truncQ e.1
      let y1 := truncQ e.2
      if x0 = x1 then
        (intRange (min y0 y1) (max y0 y1)).map (fun y => (x0, y))
      else if y0 = y1 then
        (intRange (min x0 x1) (max x0 x1)).map (fun x => (x, y0))
      else []
    | _, _ => []
  base ++ interpolated

/-- `_action_hits_water`: does any referenced coordinate lie in the known
water set?  (The source short-circuits on an empty set; the semantics is the
same.) -/
def actionHitsWater (water : Finset Coord) (a : Action) : Bool :=
  if water = ∅ then false
  else decide (∃ c ∈ actionCoords a, c ∈ water)

/-- `_action_out_of_bounds`: does any referenced coordinate lie outside the
256×256 grid? -/
def actionOutOfBounds (a : Action) : Bool :=
  decide (∃ c ∈ actionCoords a, c.1 < 0 ∨ 256 ≤ c.1 ∨ c.2 < 0 ∨ 256 ≤ c.2)

/-! ## WaterSet seeding and growth (`build_water_set`, `_record_water_failure`) -/

/-- The 4×4 block of grid cells covered by overview cell `(ox, oy)`
(`scale = 4`: the overview is 64×64 for the 256×256 grid). -/
def overviewBlock (ox oy : ℤ) : Finset Coord :=
  ((intRange 0 3).flatMap fun dy =>
    (intRange 0 3).map fun dx => (ox * 4 + dx, oy * 4 + dy)).toFinset

/-- One row of `build_water_set`: scan the row's characters left to right
starting at overview column `ox`, expanding each `'~'` into its 4×4 block. -/
def rowWater (oy : ℤ) : ℤ → List Char → Finset Coord
  | _, [] => ∅
  | ox, ch :: rest =>
    (if ch = '~' then overviewBlock ox oy else ∅) ∪ rowWater oy (ox + 1) rest

/-- `build_water_set` on the rows starting at overview row `oy`. -/
def buildWaterSetFrom : ℤ → List (List Char) → Finset Coord
  | _, [] => ∅
  | oy, row :: rest => rowWater oy 0 row ∪ buildWaterSetFrom (oy + 1) rest

/-- `build_water_set`: expand every `'~'` cell of the parsed overview map
into a 4×4 block of known-water grid cells. -/
def buildWaterSet (gridLines : List (List Char)) : Finset Coord :=
  buildWaterSetFrom 0 gridLines

/-- Character of the overview map at column `ox` of row `oy`, if present. -/
def overviewCharAt (gridLines : List (List Char)) (ox oy : ℕ) : Option Char :=
  (gridLines.get? oy).bind fun row => row.get? ox

/-- The ±2 dilation square around a coordinate
(`for dx in range(-2, 3): for dy in range(-2, 3)`). -/
def dilate2 (c : Coord) : Finset Coord :=
  ((intRange (-2) 2).flatMap fun dx =>
    (intRange (-2) 2).map fun dy => (c.1 + dx, c.2 + dy)).toFinset

/-- `_record_water_failure`: add every coordinate of a water-blocked action,
together with its ±2 dilation square, to the water set. -/
def recordWaterFailure (water : Finset Coord) (a : Action) : Finset Coord :=
  (actionCoords a).foldl (fun acc c => (insert c acc) ∪ dilate2 c) water

/-! ## Action Normalizer (`ZONE_TYPE_ALIASES`, `TAX_FLOOR`, `normalize_action`) -/

/-- `ZONE_TYPE_ALIASES` lookup: map a known free-text zone-type alias to its
canonical value, leaving unknown strings unchanged. -/
def zoneAlias (z : String) : String :=
  if z = "IndustrialLow" then "Industrial"
  else if z = "IndustrialHigh" then "Industrial"
  else if z = "OfficeLow" then "Office"
  else if z = "OfficeHigh" then "Office"
  else if z = "ResLow" then "ResidentialLow"
  else if z = "ResHigh" then "ResidentialHigh"
  else if z = "ComLow" then "CommercialLow"
  else if z = "ComHigh" then "CommercialHigh"
  else if z = "Residential" then "ResidentialLow"
  else if z = "Commercial" then "CommercialLow"
  else if z = "MixedUse" then "MixedUse"
  else z

/-- `road_map.get(rt, "Local")`: canonical road type for a lowercased
road-type string; unknown strings default to `"Local"`. -/
def roadTypeMap (rt : String) : String :=
  if rt = "local" then "Local"
  else if rt = "avenue" then "Avenue"
  else if rt = "boulevard" then "Boulevard"
  else if rt = "highway" then "Highway"
  else if rt = "main" then "Avenue"
  else if rt = "arterial" then "Avenue"
  else if rt = "collector" then "Local"
  else if rt = "residential" then "Local"
  else "Local"

/-- `TAX_FLOOR = 0.08`: minimum admissible tax rate. -/
def TAX_FLOOR : ℚ := 8 / 100

/-- Python `str.lower()` (the road-type strings are ASCII). -/
def strLower (s : String) : String := String.mk (s.toList.map Char.toLower)

/-- Round both components of a coordinate to the nearest integer
(`[int(round(v)) for v in params[coord_key]]`). -/
def roundPair (p : QCoord) : QCoord := ((round p.1 : ℤ), (round p.2 : ℤ))

/-- The zone-rect span clamp of `normalize_action`: cap the width extent to
20 and the depth extent to 3, in either orientation.  The four conditions
test the extents computed before any mutation, exactly as the source does. -/
def clampZoneRect (mn mx : QCoord) : QCoord × QCoord :=
  let dx := mx.1 - mn.1
  let dy := mx.2 - mn.2
  let mx1 := if dx > 20 then mn.1 + 20 else mx.1
  let mx2 := if dy > 3 then mn.2 + 3 else mx.2
  let mn1 := if dx < -20 then mx.1 + 20 else mn.1
  let mn2 := if dy < -3 then mx.2 + 3 else mn.2
  ((mn1, mn2), (mx1, mx2))

/-- `SERVICE_TYPES_AS_UTILITY`: service types the LLM mislabels as utilities. -/
def serviceTypesAsUtility : List String :=
  ["WaterTreatmentPlant", "Landfill", "RecyclingCenter", "Incinerator",
   "Cemetery", "Crematorium", "SmallPark", "LargePark", "Library"]

/-- Raise a tax rate to the floor if it is below it. -/
def applyTaxFloor (v : ℚ) : ℚ := if v < TAX_FLOOR then TAX_FLOOR else v

/-- Normalizer phase 1: fix zone type aliases. -/
def normZone (p : Params) : Params :=
  match p.zoneType with
  | some zt => { p with zoneType := some (zoneAlias zt) }
  | none => p

/-- Normalizer phase 2: fix road type aliases (lowercase, then map with
default `"Local"`). -/
def normRoad (p : Params) : Params :=
  match p.roadType with
  | some rt => { p with roadType := some (roadTypeMap (strLower rt)) }
  | none => p

/-- Normalizer phase 3: round all coordinate components to integers. -/
def normRound (p : Params) : Params :=
  { p with
    start := p.start.map roundPair
    end_ := p.end_.map roundPair
    pos := p.pos.map roundPair
    min := p.min.map roundPair
    max := p.max.map roundPair }

/-- Normalizer phase 4: cap zone-rect spans (only for `ZoneRect` actions
with both corners present). -/
def normClamp (kind : String) (p : Params) : Params :=
  if kind = "ZoneRect" then
    match p.min, p.max with
    | some mn, some mx =>
      let r := clampZoneRect mn mx
      { p with min := some r.1, max := some r.2 }
    | _, _ => p
  else p

/-- Normalizer phase 5: raise sub-floor tax rates (only for `SetTaxRates`). -/
def normTax (kind : String) (p : Params) : Params :=
  if kind = "SetTaxRates" then
    { p with
      residential := p.residential.map applyTaxFloor
      commercial := p.commercial.map applyTaxFloor
      industrial := p.industrial.map applyTaxFloor
      office := p.office.map applyTaxFloor }
  else p

/-- The parameter-repair pipeline of `normalize_action`, in the source's
order: aliases, rounding, span clamping, tax floor. -/
def normParams (kind : String) (p : Params) : Params :=
  normTax kind (normClamp kind (normRound (normRoad (normZone p))))

/-- `normalize_action`: fix common LLM mistakes — zone/road type aliases,
non-integer coordinates, oversized zone rects, sub-floor tax rates, and
service types submitted as utilities. -/
def normalizeAction (a : Action) : Action :=
  -- repair the params, then reclassify service types submitted as utilities
  if a.kind = "PlaceUtility" ∧
      ((normParams a.kind a.params).utilityType.getD "") ∈ serviceTypesAsUtility then
    { kind := "PlaceService",
      params := { pos := (normParams a.kind a.params).pos,
                  serviceType := (normParams a.kind a.params).utilityType } }
  else
    { kind := a.kind, params := normParams a.kind a.params }

/-! ## Spatial/Economic Memory (`GovState`) -/

/-- A four-way tax-rate map as compared and stored by the governor
(`{k: params.get(k, 0.09) for k in [...]}`). -/
structure TaxRates where
  residential : ℚ
  commercial : ℚ
  industrial : ℚ
  office : ℚ
  deriving DecidableEq, Repr

/-- Extract the tax-rate map of a params dict, defaulting missing keys
to `0.09` as the source does. -/
def ratesOf (p : Params) : TaxRates :=
  { residential := p.residential.getD (9 / 100)
    commercial := p.commercial.getD (9 / 100)
    industrial := p.industrial.getD (9 / 100)
    office := p.office.getD (9 / 100) }

/-- The governor's cross-turn mutable memory: the module-level globals
`_water_cells`, `_road_cells`, `_placed_positions`, `_last_tax_rates`
(`none` models the initial `{}`), `_water_tower_positions`, `_next_road_y`. -/
structure GovState where
  waterCells : Finset Coord := ∅
  roadCells : Finset Coord := ∅
  placedPositions : Finset Coord := ∅
  lastTaxRates : Option TaxRates := none
  waterTowerPositions : List Coord := []
  nextRoadY : ℤ := 95
  deriving DecidableEq

/-- The slice of a backend observation the governor reads
(`obs.get("treasury", 0)` etc.). -/
structure Obs where
  treasury : ℚ := 0
  powerCoverage : ℚ := 0
  waterCoverage : ℚ := 0
  deriving DecidableEq

/-- Python tuple order on coordinate pairs (lexicographic). -/
def pairLe (p q : Coord) : Prop := p.1 < q.1 ∨ (p.1 = q.1 ∧ p.2 ≤ q.2)

instance : DecidableRel pairLe := fun p q => by unfold pairLe; infer_instance

instance : IsTrans Coord pairLe := ⟨by intro a b c hab hbc; unfold pairLe at *; omega⟩

instance : IsAntisymm Coord pairLe := by
  refine ⟨fun a b hab hba => ?_⟩
  unfold pairLe at hab hba
  have h : a.1 = b.1 ∧ a.2 = b.2 := by omega
  exact Prod.ext h.1 h.2

instance : IsTotal Coord pairLe := ⟨by intro a b; unfold pairLe; omega⟩

/-- `_road_cells - _placed_positions` as a list.  (Python's set iteration
order is unspecified; the embedding fixes the sorted order, which is also
the order `sorted(...)` produces in `_generate_fallback_actions`.) -/
def availableRoadList (st : GovState) : List Coord :=
  (st.roadCells \ st.placedPositions).sort pairLe

/-! ## Spatial spread heuristic (`_pick_furthest_from`) -/

/-- Manhattan distance (`abs(pos[0]-ref[0]) + abs(pos[1]-ref[1])`). -/
def manhattan (p q : Coord) : ℤ := |p.1 - q.1| + |p.2 - q.2|

/-- `min(... for ref in positions)`: least Manhattan distance from `p` to a
nonempty reference list (0 for an empty one, which the source never takes). -/
def minDistTo (refs : List Coord) (p : Coord) : ℤ :=
  match refs with
  | [] => 0
  | r :: rs => rs.foldl (fun acc r2 => min acc (manhattan p r2)) (manhattan p r)

/-- The scan of `_pick_furthest_from`: running best candidate and best
minimum distance, updated whenever a strictly larger minimum distance is
found. -/
def pickBest (refs : List Coord) : List Coord → Coord → ℤ → Coord
  | [], best, _ => best
  | c :: cs, best, bestD =>
    let d := minDistTo refs c
    if d > bestD then pickBest refs cs c d else pickBest refs cs best bestD

/-- `_pick_furthest_from`: the candidate furthest (in minimum Manhattan
distance) from the reference positions; with no reference positions, the
middle candidate. -/
def pickFurthestFrom (positions candidates : List Coord) : Coord :=
  if positions = [] then candidates.getD (candidates.length / 2) (0, 0)
  else pickBest positions candidates (candidates.headD (0, 0)) (-1)

/-! ## Critical-Infrastructure Injector (`_inject_critical_utilities`) -/

/-- `{"PlaceUtility": {"pos": list(pos), "utility_type": "WaterTower"}}`. -/
def waterTowerAction (p : Coord) : Action :=
  { kind := "PlaceUtility",
    params := { pos := some ((p.1 : ℚ), (p.2 : ℚ)), utilityType := some "WaterTower" } }

/-- `{"PlaceUtility": {"pos": list(pos), "utility_type": "PowerPlant"}}`. -/
def powerPlantAction (p : Coord) : Action :=
  { kind := "PlaceUtility",
    params := { pos := some ((p.1 : ℚ), (p.2 : ℚ)), utilityType := some "PowerPlant" } }

/-- The WaterTower injection loop: pick, remove from the candidate pool,
repeat; returns the picked positions and the remaining pool. -/
def injectLoop (refs : List Coord) : ℕ → List Coord → List Coord × List Coord
  | 0, avail => ([], avail)
  | n + 1, avail =>
    let p := pickFurthestFrom refs avail
    let r := injectLoop refs n (avail.erase p)
    (p :: r.1, r.2)

/-- `_inject_critical_utilities`: when coverage is critically low and the
treasury is above the $500 floor, synthesize WaterTower placements at
positions furthest from existing WaterTowers (two of them when water
coverage is below 50%), and a PowerPlant if the LLM did not place one. -/
def injectCriticalUtilities (obs : Obs) (st : GovState) (llmActions : List Action) :
    List Action :=
  if obs.treasury < 500 then []
  else
    let llmUtilityTypes := llmActions.filterMap fun a =>
      if a.kind = "PlaceUtility" then some (a.params.utilityType.getD "") else none
    let availableRoad := availableRoadList st
    if availableRoad = [] then []
    else
      let picked :=
        if obs.waterCoverage < 8 / 10 ∧ obs.treasury ≥ 200 then
          let count : ℕ := if obs.waterCoverage < 5 / 10 then 2 else 1
          injectLoop st.waterTowerPositions (min count availableRoad.length) availableRoad
        else ([], availableRoad)
      let injected := picked.1.map waterTowerAction
      if obs.powerCoverage < 8 / 10 ∧ "PowerPlant" ∉ llmUtilityTypes ∧
          obs.treasury ≥ 1200 then
        if picked.2 ≠ [] then
          injected ++ [powerPlantAction (pickFurthestFrom [] picked.2)]
        else injected
      else injected

/-! ## Fallback Generator (`_generate_fallback_actions`) -/

/-- The road probe `{"PlaceRoadLine": {"start": [100, y], "end": [120, y]}}`
whose water check gates fallback road placement. -/
def roadProbeAction (y : ℤ) : Action :=
  { kind := "PlaceRoadLine",
    params := { start := some (100, (y : ℚ)), end_ := some (120, (y : ℚ)) } }

/-- The fallback road segment at frontier row `y`. -/
def fallbackRoadAction (y : ℤ) : Action :=
  { kind := "PlaceRoadLine",
    params := { start := some (100, (y : ℚ)), end_ := some (120, (y : ℚ)),
                roadType := some "Local" } }

/-- A fallback one-row zoning rectangle at row `y`. -/
def fallbackZoneAction (zt : String) (y : ℤ) : Action :=
  { kind := "ZoneRect",
    params := { min := some (100, (y : ℚ)), max := some (120, (y : ℚ)),
                zoneType := some zt } }

/-- `_generate_fallback_actions`: when the LLM returned nothing, place a
WaterTower and/or PowerPlant on free road cells if coverage is low, then
extend the road grid southward at the frontier row (skipped if that row
would hit known water), zoning one row on each side of the new road.
Returns the actions together with the updated `_next_road_y`. -/
def generateFallbackActions (obs : Obs) (st : GovState) : List Action × ℤ :=
  if obs.treasury < 500 then ([], st.nextRoadY)
  else
    let availableRoad := availableRoadList st
    let step1 :=
      if obs.waterCoverage < 8 / 10 ∧ availableRoad ≠ [] ∧ obs.treasury ≥ 200 then
        ([waterTowerAction (availableRoad.headD (0, 0))], availableRoad.tail)
      else ([], availableRoad)
    let acts :=
      if obs.powerCoverage < 8 / 10 ∧ step1.2 ≠ [] ∧ obs.treasury ≥ 1200 then
        step1.1 ++ [powerPlantAction (step1.2.headD (0, 0))]
      else step1.1
    if obs.treasury ≥ 500 ∧ acts.length < 3 then
      let y := st.nextRoadY
      if y < 200 ∧ actionHitsWater st.waterCells (roadProbeAction y) = false then
        (acts ++ [fallbackRoadAction y, fallbackZoneAction "ResidentialLow" (y + 1),
                  fallbackZoneAction "Industrial" (y - 1)], y + 3)
      else (acts, st.nextRoadY)
    else (acts, st.nextRoadY)

/-! ## Admission Controller (the pre-filter loop of `play_turn`) -/

/-- `ACTION_COSTS.get(action_type, 500)`: fixed approximate cost per action
kind for budget-aware filtering. -/
def actionCost (kind : String) : ℚ :=
  if kind = "PlaceRoadLine" then 200
  else if kind = "ZoneRect" then 0
  else if kind = "PlaceUtility" then 600
  else if kind = "PlaceService" then 1000
  else if kind = "BulldozeRect" then 0
  else if kind = "SetTaxRates" then 0
  else 500

/-- The dynamic zone-rect ceiling: lowered when the treasury trend shows a
fast negative delta (`MAX_ZONES_PER_TURN`). -/
def maxZonesPerTurn (treasDelta treasury : ℚ) : ℕ :=
  if treasDelta < -3000 ∧ treasury < 50000 then 2
  else if treasDelta < -5000 then 3
  else 6

/-- Per-turn economic inputs of the filter: current treasury and the
previous turn's treasury delta (`_last_treasury_delta`). -/
structure TurnCfg where
  treasury : ℚ := 0
  treasDelta : ℚ := 0

/-- The filter loop's running state: admitted actions so far, the
per-category counters, and the spent-so-far ledger. -/
structure FilterState where
  admitted : List Action := []
  utilityCount : ℕ := 0
  zoneCount : ℕ := 0
  serviceCounts : String → ℕ := fun _ => 0
  spentEstimate : ℚ := 0

/-- Is a placement's position already occupied?
(`pos_key in _placed_positions`; an absent position is never occupied.) -/
def occupiedAt (placed : Finset Coord) (p : Params) : Bool :=
  match p.pos with
  | some pos => decide (truncPair pos ∈ placed)
  | none => false

/-- Budget check: skip any action whose positive approximate cost exceeds
`treasury - spent_estimate`; otherwise charge the ledger and admit. -/
def budgetStage (cfg : TurnCfg) (fs : FilterState) (a : Action) : FilterState :=
  let cost := actionCost a.kind
  if cost > 0 ∧ cfg.treasury - fs.spentEstimate < cost then fs
  else { fs with spentEstimate := fs.spentEstimate + cost,
                 admitted := fs.admitted ++ [a] }

/-- Zone-rect cap: count the zone rect, and skip it once the count exceeds
the (possibly throttled) per-turn ceiling. -/
def zoneStage (cfg : TurnCfg) (maxZones : ℕ) (fs : FilterState) (a : Action) :
    FilterState :=
  if a.kind = "ZoneRect" then
    let fs' := { fs with zoneCount := fs.zoneCount + 1 }
    if fs'.zoneCount > maxZones then fs' else budgetStage cfg fs' a
  else budgetStage cfg fs a

/-- Per-service-type cap: count the service placement, and skip it once its
type's count exceeds `MAX_PER_SERVICE_TYPE = 2`. -/
def serviceStage (cfg : TurnCfg) (maxZones : ℕ) (fs : FilterState) (a : Action) :
    FilterState :=
  if a.kind = "PlaceService" then
    let stype := a.params.serviceType.getD ""
    let n := fs.serviceCounts stype + 1
    let fs' := { fs with serviceCounts := fun t => if t = stype then n else fs.serviceCounts t }
    if n > 2 then fs' else zoneStage cfg maxZones fs' a
  else zoneStage cfg maxZones fs a

/-- Utility cap: count non-WaterTower utility placements, and skip one once
the count exceeds `MAX_UTILITIES_PER_TURN = 4` (WaterTower is exempt). -/
def utilityStage (cfg : TurnCfg) (maxZones : ℕ) (fs : FilterState) (a : Action) :
    FilterState :=
  if a.kind = "PlaceUtility" ∧ a.params.utilityType.getD "" ≠ "WaterTower" then
    let fs' := { fs with utilityCount := fs.utilityCount + 1 }
    if fs'.utilityCount > 4 then fs' else serviceStage cfg maxZones fs' a
  else serviceStage cfg maxZones fs a

/-- One iteration of the admission filter loop, in the source's order:
bounds, water, redundant taxes, occupancy, then the caps and the budget
ledger.  A skip leaves the rest of the loop body unexecuted but keeps
counter increments already made. -/
def admitStep (st : GovState) (cfg : TurnCfg) (maxZones : ℕ) (fs : FilterState)
    (a : Action) : FilterState :=
  if actionOutOfBounds a then fs
  else if actionHitsWater st.waterCells a then fs
  else if a.kind = "SetTaxRates" ∧ st.lastTaxRates = some (ratesOf a.params) then fs
  else if (a.kind = "PlaceUtility" ∨ a.kind = "PlaceService") ∧
      occupiedAt st.placedPositions a.params then fs
  else utilityStage cfg maxZones fs a

/-- The admission filter over a turn's normalized action list: the admitted
subset, in order. -/
def admitActions (st : GovState) (cfg : TurnCfg) (acts : List Action) : List Action :=
  (acts.foldl (admitStep st cfg (maxZonesPerTurn cfg.treasDelta cfg.treasury))
    {}).admitted

/-- The full per-turn pre-filter: normalize every proposed action, then run
the admission filter. -/
def filterTurnActions (st : GovState) (cfg : TurnCfg) (raw : List Action) :
    List Action :=
  admitActions st cfg (raw.map normalizeAction)

/-! ## Result processing (Memory updates after `game.act`) -/

/-- A backend action result: the `"Success"` marker or a structured failure
reason code. -/
inductive ActResult where
  | success
  | error (reason : String)
  deriving DecidableEq

/-- The interpolated cells of an axis-aligned road segment, as recorded into
`_road_cells` on a successful `PlaceRoadLine`. -/
def roadLineCells (s e : Coord) : List Coord :=
  if s.1 = e.1 then
    (intRange (min s.2 e.2) (max s.2 e.2)).map (fun y => (s.1, y))
  else if s.2 = e.2 then
    (intRange (min s.1 e.1) (max s.1 e.1)).map (fun x => (x, s.2))
  else []

/-- Update Memory from one submitted action's result: water failures dilate
the water set, `AlreadyExists` confirms occupancy, and successes record
placements, road cells, WaterTower positions, tax state and the fallback
frontier row. -/
def processResult (st : GovState) (a : Action) (r : ActResult) : GovState :=
  match r with
  | .error reason =>
    let st :=
      if reason = "BlockedByWater" then
        { st with waterCells := recordWaterFailure st.waterCells a }
      else st
    if reason = "AlreadyExists" then
      match a.params.pos with
      | some pos => { st with placedPositions := insert (truncPair pos) st.placedPositions }
      | none => st
    else st
  | .success =>
    let st :=
      if a.kind = "PlaceUtility" ∨ a.kind = "PlaceService" then
        match a.params.pos with
        | some pos =>
          let pt := truncPair pos
          let st1 := { st with placedPositions := insert pt st.placedPositions }
          if a.kind = "PlaceUtility" ∧ a.params.utilityType.getD "" = "WaterTower" then
            { st1 with waterTowerPositions := st1.waterTowerPositions ++ [pt] }
          else st1
        | none => st
      else st
    let st :=
      if a.kind = "PlaceRoadLine" then
        match a.params.start, a.params.end_ with
        | some s, some e =>
          let s' := truncPair s
          let e' := truncPair e
          let st2 := { st with roadCells := st.roadCells ∪ (roadLineCells s' e').toFinset }
          if max s'.2 e'.2 + 5 > st2.nextRoadY then
            { st2 with nextRoadY := max s'.2 e'.2 + 5 }
          else st2
        | _, _ => st
      else st
    if a.kind = "SetTaxRates" then { st with lastTaxRates := some (ratesOf a.params) }
    else st

/-- Fold the result processing over a turn's submitted actions. -/
def processResults (st : GovState) (l : List (Action × ActResult)) : GovState :=
  l.foldl (fun s ar => processResult s ar.1 ar.2) st

/-! ## Response Parser (`parse_response`)

The parser's control flow is embedded exactly; the pieces that call into
Python's `json` and `re` libraries are abstracted into a `ParseEnv`:
`loads` models `json.loads` (with `none` standing for a raised
`JSONDecodeError`), `reSearch` models the two `re.search` pattern probes,
`reFindIter` models the per-action-type `re.finditer`, and `stripFences`
models the markdown-fence stripping (`re.sub` plus `rstrip`).  The bracket
location (`str.find` / `str.rfind`) and the truncation-repair suffixes are
embedded concretely. -/

/-- A parsed Python JSON value, as far as `parse_response` inspects it:
a dict, a list, or any other value. -/
inductive PyJson where
  | jdict (pairs : List (String × PyJson))
  | jlist (elems : List PyJson)
  | jatom

/-- The library operations `parse_response` depends on. -/
structure ParseEnv where
  loads : String → Option PyJson
  reSearch : String → String → Option String
  reFindIter : String → String → List String
  stripFences : String → String

/-- The intent returned when nothing parses: `{"actions": []}`. -/
def emptyActionsIntent : PyJson := .jdict [("actions", .jlist [])]

/-- Index of the first occurrence of a character (`str.find`). -/
def firstIdx (c : Char) : List Char → ℕ → Option ℕ
  | [], _ => none
  | x :: xs, i => if x = c then some i else firstIdx c xs (i + 1)

/-- Index of the last occurrence of a character (`str.rfind`). -/
def lastIdx (c : Char) (l : List Char) : Option ℕ :=
  match firstIdx c l.reverse 0 with
  | some i => some (l.length - 1 - i)
  | none => none

/-- `text[start : end + 1]` on the character list. -/
def sliceStr (text : String) (s e : ℕ) : String :=
  String.mk ((text.toList.drop s).take (e + 1 - s))

/-- Strategy 1: direct parse — a dict is returned as-is, a list is wrapped
as `{"actions": ...}`, any other value falls through. -/
def tryDirect (env : ParseEnv) (text : String) : Option PyJson :=
  match env.loads text with
  | some (.jdict d) => some (.jdict d)
  | some (.jlist l) => some (.jdict [("actions", .jlist l)])
  | _ => none

/-- Strategy 2: search for an `{"actions": [...]}` then a `{"query": [...]}`
pattern and parse the match; a parse failure moves to the next pattern. -/
def tryPatterns (env : ParseEnv) (text : String) : Option PyJson :=
  match (env.reSearch "actions" text).bind env.loads with
  | some j => some j
  | none => (env.reSearch "query" text).bind env.loads

/-- Strategy 3: parse the substring between the first opening and the last
closing bracket of the given shape. -/
def tryBrackets (env : ParseEnv) (text : String) (sc ec : Char) : Option PyJson :=
  match firstIdx sc text.toList 0, lastIdx ec text.toList with
  | some s, some e =>
    if s < e then
      match env.loads (sliceStr text s e) with
      | some (.jlist l) => some (.jdict [("actions", .jlist l)])
      | some (.jdict d) => some (.jdict d)
      | _ => none
    else none
  | _, _ => none

/-- The six action kinds whose objects strategy 4 greps out of the text. -/
def actionTypeNames : List String :=
  ["PlaceRoadLine", "ZoneRect", "PlaceUtility", "PlaceService",
   "BulldozeRect", "SetTaxRates"]

/-- Strategy 4: extract every individually parseable action object. -/
def tryPerAction (env : ParseEnv) (text : String) : Option PyJson :=
  let actions := actionTypeNames.flatMap fun t =>
    (env.reFindIter t text).filterMap env.loads
  if actions.isEmpty then none
  else some (.jdict [("actions", .jlist actions)])

/-- The closing suffixes tried by the truncation repair. -/
def truncSuffixes : List String := ["]\x7d", "]\x7d\x7d", "\x7d", "]\x7d\x7d\x7d", "\"]\x7d"]

/-- Strategy 5: repair truncated JSON by appending plausible suffixes to the
fragment starting at the first bracket of the given shape. -/
def tryTrunc (env : ParseEnv) (text : String) (sc : Char) : Option PyJson :=
  match firstIdx sc text.toList 0 with
  | some s =>
    let fragment := String.mk (text.toList.drop s)
    truncSuffixes.findSome? fun suf =>
      match env.loads (fragment ++ suf) with
      | some (.jlist l) => some (.jdict [("actions", .jlist l)])
      | some (.jdict d) => some (.jdict d)
      | _ => none
  | none => none

/-- `parse_response`: try the recovery strategies in order and return the
first success; with no valid JSON anywhere, return `{"actions": []}`.  A
total function — every parse failure is handled internally, never raised. -/
def parseAttempts (env : ParseEnv) (text : String) : Option PyJson :=
  tryDirect env text <|> tryPatterns env text <|>
    tryBrackets env text '\x7b' '\x7d' <|> tryBrackets env text '[' ']' <|>
    tryPerAction env text <|> tryTrunc env text '\x7b' <|> tryTrunc env text '['

/-- `parse_response` on the fence-stripped text: the first strategy success,
or the `{"actions": []}` intent when none succeeds. -/
def parseResponse (env : ParseEnv) (content : String) : PyJson :=
  match parseAttempts env (env.stripFences content) with
  | some j => j
  | none => emptyActionsIntent

/-- Modelled from the claim's words (not from the code): the set of grid
cells covered by a zone/bulldoze rectangle with corners `min` and `max`.
The code's `_action_coords` extracts only the two corners, so this spec-side
notion is strictly larger than what the Admission Controller checks. -/
def specRectCovered (p : Params) (c : Coord) : Bool :=
  match p.min, p.max with
  | some mn, some mx =>
    decide (truncQ mn.1 ≤ c.1 ∧ c.1 ≤ truncQ mx.1 ∧
      truncQ mn.2 ≤ c.2 ∧ c.2 ≤ truncQ mx.2)
  | _, _ => false

/-! ## Concrete scenario values (from the spec's testable properties) -/

/-- The zone rectangle (5,5)–(15,8) (within the normalizer's span caps, so
normalization leaves it unchanged); its interior covers (10,6). -/
def zoneRectOverWater : Action :=
  { kind := "ZoneRect",
    params := { min := some (5, 5), max := some (15, 8),
                zoneType := some "Industrial" } }

/-- A governor state whose WaterSet holds (10,6), strictly inside the zone
rectangle above. -/
def rectWaterState : GovState := { waterCells := {((10, 6) : Coord)} }

/-- The road line (5,10)–(15,10) of the water-rejection scenario. -/
def roadLineOverWater : Action :=
  { kind := "PlaceRoadLine",
    params := { start := some (5, 10), end_ := some (15, 10),
                roadType := some "Local" } }

/-- The governor state of the water-rejection scenario:
WaterSet = {(10,10)}, with a nonempty RoadCellSet to track. -/
def waterScenarioState : GovState :=
  { waterCells := {((10, 10) : Coord)}, roadCells := {((3, 3) : Coord)} }

/-- A `SetTaxRates` action carrying exactly the four rates of a tax map. -/
def setTaxRatesAction (r : TaxRates) : Action :=
  { kind := "SetTaxRates",
    params := { residential := some r.residential,
                commercial := some r.commercial,
                industrial := some r.industrial,
                office := some r.office } }

/-- A placement action at the out-of-bounds position (300, 10). -/
def outOfBoundsUtility : Action :=
  { kind := "PlaceUtility",
    params := { pos := some (300, 10), utilityType := some "WaterTower" } }

/-! ## Basic lemmas -/

theorem mem_intRangeAux (y lo : ℤ) (n : ℕ) :
    y ∈ intRangeAux lo n ↔ lo ≤ y ∧ y < lo + n := by
  induction n generalizing lo with
  | zero => simp [intRangeAux]
  | succ m ih =>
    simp only [intRangeAux, List.mem_cons, ih]
    constructor
    · rintro (rfl | ⟨h1, h2⟩) <;> (push_cast; omega)
    · rintro ⟨h1, h2⟩
      rcases eq_or_lt_of_le h1 with rfl | hlt
      · exact Or.inl rfl
      · exact Or.inr ⟨by omega, by push_cast at h2 ⊢; omega⟩

theorem mem_intRange (lo hi y : ℤ) : y ∈ intRange lo hi ↔ lo ≤ y ∧ y ≤ hi := by
  unfold intRange
  rw [mem_intRangeAux]
  omega

/-! ## Normalizer lemmas (toward idempotence) -/

theorem zoneAlias_eq_self (z : String) (h1 : z ≠ "IndustrialLow")
    (h2 : z ≠ "IndustrialHigh") (h3 : z ≠ "OfficeLow") (h4 : z ≠ "OfficeHigh")
    (h5 : z ≠ "ResLow") (h6 : z ≠ "ResHigh") (h7 : z ≠ "ComLow")
    (h8 : z ≠ "ComHigh") (h9 : z ≠ "Residential") (h10 : z ≠ "Commercial")
    (h11 : z ≠ "MixedUse") : zoneAlias z = z := by
  unfold zoneAlias
  rw [if_neg h1, if_neg h2, if_neg h3, if_neg h4, if_neg h5, if_neg h6,
    if_neg h7, if_neg h8, if_neg h9, if_neg h10, if_neg h11]

/-- The zone-type alias table is idempotent: no canonical value is itself a
non-fixed alias key. -/
theorem zoneAlias_idem (z : String) : zoneAlias (zoneAlias z) = zoneAlias z := by
  by_cases h1 : z = "IndustrialLow"
  · subst h1; decide
  by_cases h2 : z = "IndustrialHigh"
  · subst h2; decide
  by_cases h3 : z = "OfficeLow"
  · subst h3; decide
  by_cases h4 : z = "OfficeHigh"
  · subst h4; decide
  by_cases h5 : z = "ResLow"
  · subst h5; decide
  by_cases h6 : z = "ResHigh"
  · subst h6; decide
  by_cases h7 : z = "ComLow"
  · subst h7; decide
  by_cases h8 : z = "ComHigh"
  · subst h8; decide
  by_cases h9 : z = "Residential"
  · subst h9; decide
  by_cases h10 : z = "Commercial"
  · subst h10; decide
  by_cases h11 : z = "MixedUse"
  · subst h11; decide
  rw [zoneAlias_eq_self z h1 h2 h3 h4 h5 h6 h7 h8 h9 h10 h11]
  exact zoneAlias_eq_self z h1 h2 h3 h4 h5 h6 h7 h8 h9 h10 h11

theorem roadTypeMap_eq_default (s : String) (h1 : s ≠ "local")
    (h2 : s ≠ "avenue") (h3 : s ≠ "boulevard") (h4 : s ≠ "highway")
    (h5 : s ≠ "main") (h6 : s ≠ "arterial") (h7 : s ≠ "collector")
    (h8 : s ≠ "residential") : roadTypeMap s = "Local" := by
  unfold roadTypeMap
  rw [if_neg h1, if_neg h2, if_neg h3, if_neg h4, if_neg h5, if_neg h6,
    if_neg h7, if_neg h8]

/-- Lowercasing a canonical road type and mapping it again is the identity:
the road-type normalization reaches a fixed point after one application. -/
theorem roadTypeMap_lower_idem (s : String) :
    roadTypeMap (strLower (roadTypeMap s)) = roadTypeMap s := by
  by_cases h1 : s = "local"
  · subst h1; decide
  by_cases h2 : s = "avenue"
  · subst h2; decide
  by_cases h3 : s = "boulevard"
  · subst h3; decide
  by_cases h4 : s = "highway"
  · subst h4; decide
  by_cases h5 : s = "main"
  · subst h5; decide
  by_cases h6 : s = "arterial"
  · subst h6; decide
  by_cases h7 : s = "collector"
  · subst h7; decide
  by_cases h8 : s = "residential"
  · subst h8; decide
  rw [roadTypeMap_eq_default s h1 h2 h3 h4 h5 h6 h7 h8]
  decide

/-- Rounding an already-integral coordinate pair is the identity. -/
theorem roundPair_idem (q : QCoord) : roundPair (roundPair q) = roundPair q := by
  unfold roundPair
  simp

/-- The tax floor is idempotent. -/
theorem applyTaxFloor_idem (v : ℚ) :
    applyTaxFloor (applyTaxFloor v) = applyTaxFloor v := by
  unfold applyTaxFloor TAX_FLOOR
  split_ifs with h1 h2 <;> first | rfl | linarith

/-- After one clamp, both extents are within the caps. -/
theorem clampZoneRect_bounds (mn mx : QCoord) :
    -20 ≤ (clampZoneRect mn mx).2.1 - (clampZoneRect mn mx).1.1 ∧
    (clampZoneRect mn mx).2.1 - (clampZoneRect mn mx).1.1 ≤ 20 ∧
    -3 ≤ (clampZoneRect mn mx).2.2 - (clampZoneRect mn mx).1.2 ∧
    (clampZoneRect mn mx).2.2 - (clampZoneRect mn mx).1.2 ≤ 3 := by
  unfold clampZoneRect
  dsimp only
  split_ifs <;> refine ⟨by linarith, by linarith, by linarith, by linarith⟩

/-- The zone-rect span clamp is idempotent. -/
theorem clampZoneRect_idem (mn mx : QCoord) :
    clampZoneRect (clampZoneRect mn mx).1 (clampZoneRect mn mx).2 =
      clampZoneRect mn mx := by
  unfold clampZoneRect
  dsimp only
  split_ifs <;> first | rfl | (exfalso; linarith)

/-- A rational that is an integer cast (the shape of normalized coordinates). -/
def IsIntQ (x : ℚ) : Prop := ∃ m : ℤ, x = (m : ℚ)

theorem IsIntQ.add_lit (x : ℚ) (h : IsIntQ x) (c : ℤ) : IsIntQ (x + (c : ℚ)) := by
  obtain ⟨m, rfl⟩ := h
  exact ⟨m + c, by push_cast; ring⟩

theorem roundQ_intCast (m : ℤ) : (round ((m : ℚ)) : ℚ) = (m : ℚ) := by simp

theorem roundPair_fix (q : QCoord) (h1 : IsIntQ q.1) (h2 : IsIntQ q.2) :
    roundPair q = q := by
  obtain ⟨m, hm⟩ := h1
  obtain ⟨n, hn⟩ := h2
  unfold roundPair
  rw [hm, hn]
  simp [Prod.ext_iff, ← hm, ← hn]
  constructor <;> simp [hm, hn]

theorem roundPair_int (q : QCoord) : IsIntQ (roundPair q).1 ∧ IsIntQ (roundPair q).2 :=
  ⟨⟨round q.1, rfl⟩, ⟨round q.2, rfl⟩⟩

theorem clampZoneRect_int (mn mx : QCoord)
    (h1 : IsIntQ mn.1) (h2 : IsIntQ mn.2) (h3 : IsIntQ mx.1) (h4 : IsIntQ mx.2) :
    (IsIntQ (clampZoneRect mn mx).1.1 ∧ IsIntQ (clampZoneRect mn mx).1.2) ∧
      IsIntQ (clampZoneRect mn mx).2.1 ∧ IsIntQ (clampZoneRect mn mx).2.2 := by
  unfold clampZoneRect
  dsimp only
  refine ⟨⟨?_, ?_⟩, ?_, ?_⟩ <;> split_ifs <;>
    first
      | assumption
      | exact IsIntQ.add_lit _ ‹_› 20
      | exact IsIntQ.add_lit _ ‹_› 3

theorem roundPair_comp : roundPair ∘ roundPair = roundPair :=
  funext roundPair_idem

theorem applyTaxFloor_comp : applyTaxFloor ∘ applyTaxFloor = applyTaxFloor :=
  funext applyTaxFloor_idem

theorem roundPair_clamp_fst (a b : QCoord) :
    roundPair (clampZoneRect (roundPair a) (roundPair b)).1 =
      (clampZoneRect (roundPair a) (roundPair b)).1 := by
  have h := clampZoneRect_int (roundPair a) (roundPair b)
    (roundPair_int a).1 (roundPair_int a).2 (roundPair_int b).1 (roundPair_int b).2
  exact roundPair_fix _ h.1.1 h.1.2

theorem roundPair_clamp_snd (a b : QCoord) :
    roundPair (clampZoneRect (roundPair a) (roundPair b)).2 =
      (clampZoneRect (roundPair a) (roundPair b)).2 := by
  have h := clampZoneRect_int (roundPair a) (roundPair b)
    (roundPair_int a).1 (roundPair_int a).2 (roundPair_int b).1 (roundPair_int b).2
  exact roundPair_fix _ h.2.1 h.2.2

/-- The parameter-repair pipeline reaches a fixed point after one
application. -/
theorem normParams_idem (k : String) (p : Params) :
    normParams k (normParams k p) = normParams k p := by
  obtain ⟨s, e, pos, mn, mx, rt, zt, ut, svt, tr, tc, ti, tof⟩ := p
  unfold normParams normZone normRoad normRound normClamp normTax
  cases zt <;> cases rt <;> cases mn <;> cases mx <;>
    by_cases hk : k = "ZoneRect" <;> by_cases ht : k = "SetTaxRates" <;>
    first
      | (subst hk; exact absurd ht (by decide))
      | simp [hk, ht, Option.map_map, roundPair_comp, applyTaxFloor_comp,
          zoneAlias_idem, roadTypeMap_lower_idem, roundPair_idem,
          clampZoneRect_idem, roundPair_clamp_fst, roundPair_clamp_snd]

theorem normParams_pos (k : String) (p : Params) :
    (normParams k p).pos = p.pos.map roundPair := by
  obtain ⟨s, e, pos, mn, mx, rt, zt, ut, svt, tr, tc, ti, tof⟩ := p
  unfold normParams normZone normRoad normRound normClamp normTax
  cases zt <;> cases rt <;> cases mn <;> cases mx <;>
    by_cases hk : k = "ZoneRect" <;> by_cases ht : k = "SetTaxRates" <;>
    first
      | (subst hk; exact absurd ht (by decide))
      | simp [hk, ht]

theorem normParams_utilityType (k : String) (p : Params) :
    (normParams k p).utilityType = p.utilityType := by
  obtain ⟨s, e, pos, mn, mx, rt, zt, ut, svt, tr, tc, ti, tof⟩ := p
  unfold normParams normZone normRoad normRound normClamp normTax
  cases zt <;> cases rt <;> cases mn <;> cases mx <;>
    by_cases hk : k = "ZoneRect" <;> by_cases ht : k = "SetTaxRates" <;>
    first
      | (subst hk; exact absurd ht (by decide))
      | simp [hk, ht]

theorem normParams_reclass (x : Option QCoord) (u : Option String) :
    normParams "PlaceService" { pos := x.map roundPair, serviceType := u } =
      ({ pos := x.map roundPair, serviceType := u } : Params) := by
  unfold normParams normZone normRoad normRound normClamp normTax
  simp [show ("PlaceService" : String) ≠ "ZoneRect" by decide,
    show ("PlaceService" : String) ≠ "SetTaxRates" by decide,
    Option.map_map, roundPair_comp]

theorem normalizeAction_placeService_fix (x : Option QCoord) (u : Option String) :
    normalizeAction ⟨"PlaceService", { pos := x.map roundPair, serviceType := u }⟩ =
      ⟨"PlaceService", { pos := x.map roundPair, serviceType := u }⟩ := by
  unfold normalizeAction
  have hne : ("PlaceService" : String) ≠ "PlaceUtility" := by decide
  split_ifs with h
  · exact absurd h.1 hne
  · rw [normParams_reclass]

/-- C7: the Action Normalizer is idempotent — for every action value,
applying `normalize_action` twice yields the same result as applying it
once; alias mapping, coordinate rounding, zone-rect clamping, tax-floor
raising and utility-to-service reclassification all reach a fixed point
after one application. -/
theorem C7_normalizer_idempotent (a : Action) :
    normalizeAction (normalizeAction a) = normalizeAction a := by
  by_cases hc : a.kind = "PlaceUtility" ∧
      ((normParams a.kind a.params).utilityType.getD "") ∈ serviceTypesAsUtility
  · have e1 : normalizeAction a =
        ⟨"PlaceService", { pos := (normParams a.kind a.params).pos,
                           serviceType := (normParams a.kind a.params).utilityType }⟩ := by
      unfold normalizeAction
      rw [if_pos hc]
    rw [e1, normParams_pos]
    exact normalizeAction_placeService_fix _ _
  · have e1 : normalizeAction a = ⟨a.kind, normParams a.kind a.params⟩ := by
      unfold normalizeAction
      rw [if_neg hc]
    rw [e1]
    unfold normalizeAction
    dsimp only
    simp only [normParams_utilityType, normParams_idem]
    rw [normParams_utilityType] at hc
    rw [if_neg hc]

/-! ## WaterSet lemmas -/

theorem mem_dilate2 (c c' : Coord) :
    c' ∈ dilate2 c ↔ |c'.1 - c.1| ≤ 2 ∧ |c'.2 - c.2| ≤ 2 := by
  obtain ⟨cx, cy⟩ := c
  obtain ⟨x, y⟩ := c'
  unfold dilate2
  simp only [List.mem_toFinset, List.mem_flatMap, List.mem_map, mem_intRange,
    abs_le, Prod.mk.injEq]
  constructor
  · rintro ⟨dx, hdx, dy, hdy, h1, h2⟩
    omega
  · rintro ⟨h1, h2⟩
    exact ⟨x - cx, by omega, y - cy, by omega, by omega, by omega⟩

theorem mem_recordFold (l : List Coord) (w : Finset Coord) (c : Coord) :
    c ∈ l.foldl (fun acc c => (insert c acc) ∪ dilate2 c) w ↔
      c ∈ w ∨ ∃ p ∈ l, |c.1 - p.1| ≤ 2 ∧ |c.2 - p.2| ≤ 2 := by
  induction l generalizing w with
  | nil => simp
  | cons p rest ih =>
    simp only [List.foldl_cons, ih, Finset.mem_union, Finset.mem_insert,
      mem_dilate2, List.mem_cons]
    constructor
    · rintro (((hc | hw) | hd) | ⟨p', hp', h1, h2⟩)
      · exact Or.inr ⟨p, Or.inl rfl, by rw [hc]; constructor <;> simp⟩
      · exact Or.inl hw
      · exact Or.inr ⟨p, Or.inl rfl, hd⟩
      · exact Or.inr ⟨p', Or.inr hp', h1, h2⟩
    · rintro (hw | ⟨p', (rfl | hp'), h1, h2⟩)
      · exact Or.inl (Or.inl (Or.inr hw))
      · exact Or.inl (Or.inr ⟨h1, h2⟩)
      · exact Or.inr ⟨p', hp', h1, h2⟩

/-- Membership in `recordWaterFailure`: the old set plus every cell
within Chebyshev distance 2 of a coordinate of the blocked action. -/
theorem mem_recordWaterFailure (w : Finset Coord) (a : Action) (c : Coord) :
    c ∈ recordWaterFailure w a ↔
      c ∈ w ∨ ∃ p ∈ actionCoords a, |c.1 - p.1| ≤ 2 ∧ |c.2 - p.2| ≤ 2 :=
  mem_recordFold (actionCoords a) w c

theorem mem_overviewBlock (ox oy : ℤ) (c : Coord) :
    c ∈ overviewBlock ox oy ↔
      ox * 4 ≤ c.1 ∧ c.1 < ox * 4 + 4 ∧ oy * 4 ≤ c.2 ∧ c.2 < oy * 4 + 4 := by
  obtain ⟨x, y⟩ := c
  unfold overviewBlock
  simp only [List.mem_toFinset, List.mem_flatMap, List.mem_map, mem_intRange,
    Prod.mk.injEq]
  constructor
  · rintro ⟨dy, hdy, dx, hdx, h1, h2⟩
    omega
  · rintro ⟨h1, h2, h3, h4⟩
    exact ⟨y - oy * 4, by omega, x - ox * 4, by omega, by omega, by omega⟩

theorem mem_rowWater (row : List Char) (oy ox0 : ℤ) (c : Coord) :
    c ∈ rowWater oy ox0 row ↔
      ∃ i : ℕ, row[i]? = some '~' ∧ (ox0 + i) * 4 ≤ c.1 ∧
        c.1 < (ox0 + i) * 4 + 4 ∧ oy * 4 ≤ c.2 ∧ c.2 < oy * 4 + 4 := by
  induction row generalizing ox0 with
  | nil => simp [rowWater]
  | cons ch rest ih =>
    unfold rowWater
    simp only [Finset.mem_union, ih, mem_overviewBlock]
    constructor
    · rintro (hblock | ⟨i, hi, hb⟩)
      · by_cases hch : ch = '~'
        · rw [if_pos hch] at hblock
          rw [mem_overviewBlock] at hblock
          exact ⟨0, by simp [hch], by push_cast; omega⟩
        · rw [if_neg hch] at hblock
          simp at hblock
      · exact ⟨i + 1, by simpa using hi, by push_cast at hb ⊢; omega⟩
    · rintro ⟨i, hi, hb⟩
      cases i with
      | zero =>
        left
        simp only [List.getElem?_cons_zero, Option.some.injEq] at hi
        rw [if_pos hi, mem_overviewBlock]
        push_cast at hb
        omega
      | succ j =>
        right
        simp only [List.getElem?_cons_succ] at hi
        exact ⟨j, hi, by push_cast at hb ⊢; omega⟩

theorem mem_buildWaterSetFrom (rows : List (List Char)) (oy0 : ℤ) (c : Coord) :
    c ∈ buildWaterSetFrom oy0 rows ↔
      ∃ j i : ℕ, (rows[j]?.bind fun row => row[i]?) = some '~' ∧
        (i : ℤ) * 4 ≤ c.1 ∧ c.1 < (i : ℤ) * 4 + 4 ∧
        (oy0 + j) * 4 ≤ c.2 ∧ c.2 < (oy0 + j) * 4 + 4 := by
  induction rows generalizing oy0 with
  | nil => simp [buildWaterSetFrom]
  | cons row rest ih =>
    unfold buildWaterSetFrom
    simp only [Finset.mem_union, ih, mem_rowWater]
    constructor
    · rintro (⟨i, hi, hb⟩ | ⟨j, i, hj, hb⟩)
      · exact ⟨0, i, by simpa using hi, by push_cast at hb ⊢; omega⟩
      · exact ⟨j + 1, i, by simpa using hj, by push_cast at hb ⊢; omega⟩
    · rintro ⟨j, i, hj, hb⟩
      cases j with
      | zero =>
        left
        simp only [List.getElem?_cons_zero, Option.some_bind] at hj
        exact ⟨i, hj, by push_cast at hb ⊢; omega⟩
      | succ j' =>
        right
        simp only [List.getElem?_cons_succ] at hj
        exact ⟨j', i, hj, by push_cast at hb ⊢; omega⟩

/-- Membership in the seeded water set: exactly the 4×4 blocks under the
`'~'` cells of the overview map. -/
theorem mem_buildWaterSet (gridLines : List (List Char)) (c : Coord) :
    c ∈ buildWaterSet gridLines ↔
      ∃ ox oy : ℕ, overviewCharAt gridLines ox oy = some '~' ∧
        (ox : ℤ) * 4 ≤ c.1 ∧ c.1 < (ox : ℤ) * 4 + 4 ∧
        (oy : ℤ) * 4 ≤ c.2 ∧ c.2 < (oy : ℤ) * 4 + 4 := by
  unfold buildWaterSet overviewCharAt
  rw [mem_buildWaterSetFrom]
  constructor
  · rintro ⟨j, i, hj, hb⟩
    exact ⟨i, j, by simpa using hj, by push_cast at hb ⊢; omega⟩
  · rintro ⟨ox, oy, hx, hb⟩
    exact ⟨oy, ox, by simpa using hx, by push_cast at hb ⊢; omega⟩

theorem recordWaterFailure_subset (w : Finset Coord) (a : Action) :
    w ⊆ recordWaterFailure w a := fun c hc =>
  (mem_recordWaterFailure w a c).mpr (Or.inl hc)

theorem processResult_waterCells_mono (st : GovState) (a : Action) (r : ActResult) :
    st.waterCells ⊆ (processResult st a r).waterCells := by
  cases r with
  | success =>
    unfold processResult
    dsimp only
    rcases hpos : a.params.pos with _ | pos <;>
      rcases hs : a.params.start with _ | s <;>
      rcases he : a.params.end_ with _ | e <;>
      simp only [hpos, hs, he] <;>
      split_ifs <;>
      exact Finset.Subset.refl _
  | error reason =>
    unfold processResult
    dsimp only
    rcases hpos : a.params.pos with _ | pos <;>
      simp only [hpos] <;>
      split_ifs <;>
      first
        | exact Finset.Subset.refl _
        | exact recordWaterFailure_subset st.waterCells a

/-- C8: the WaterSet only ever grows within a session.  It is seeded by
expanding each `'~'` overview cell into a 4×4 block of grid cells; each
runtime water-blocked action adds all of its coordinates dilated by ±2 on
each axis; and no result-processing operation of the Governor ever removes
a coordinate from the set. -/
theorem C8_waterset_monotone :
    (∀ (w : Finset Coord) (a : Action), w ⊆ recordWaterFailure w a) ∧
    (∀ (w : Finset Coord) (a : Action) (c : Coord),
      c ∈ recordWaterFailure w a ↔
        c ∈ w ∨ ∃ p ∈ actionCoords a, |c.1 - p.1| ≤ 2 ∧ |c.2 - p.2| ≤ 2) ∧
    (∀ (gridLines : List (List Char)) (c : Coord),
      c ∈ buildWaterSet gridLines ↔
        ∃ ox oy : ℕ, overviewCharAt gridLines ox oy = some '~' ∧
          (ox : ℤ) * 4 ≤ c.1 ∧ c.1 < (ox : ℤ) * 4 + 4 ∧
          (oy : ℤ) * 4 ≤ c.2 ∧ c.2 < (oy : ℤ) * 4 + 4) ∧
    (∀ (st : GovState) (a : Action) (r : ActResult),
      st.waterCells ⊆ (processResult st a r).waterCells) :=
  ⟨recordWaterFailure_subset, mem_recordWaterFailure, mem_buildWaterSet,
    processResult_waterCells_mono⟩

/-- Witness for C8 at a concrete input: the water set before a runtime
water failure is contained in the set after it. -/
theorem C8_waterset_monotone_witness :
    ((12, 12) : Coord) ∈
      recordWaterFailure {((12, 12) : Coord)} ⟨"ZoneRect", {}⟩ :=
  C8_waterset_monotone.1 {((12, 12) : Coord)} ⟨"ZoneRect", {}⟩ (by decide)

/-! ## Response Parser lemmas -/

theorem tryDirect_none (env : ParseEnv) (text : String)
    (h : ∀ s, env.loads s = none) : tryDirect env text = none := by
  unfold tryDirect
  rw [h]

theorem tryPatterns_none (env : ParseEnv) (text : String)
    (h : ∀ s, env.loads s = none) : tryPatterns env text = none := by
  unfold tryPatterns
  cases env.reSearch "actions" text <;> cases env.reSearch "query" text <;>
    simp [h, Option.bind]

theorem tryBrackets_none (env : ParseEnv) (text : String) (sc ec : Char)
    (h : ∀ s, env.loads s = none) : tryBrackets env text sc ec = none := by
  unfold tryBrackets
  cases firstIdx sc text.toList 0 <;> cases lastIdx ec text.toList <;>
    simp [h]

theorem tryPerAction_none (env : ParseEnv) (text : String)
    (h : ∀ s, env.loads s = none) : tryPerAction env text = none := by
  unfold tryPerAction
  have hfm : ∀ ts : List String, ts.filterMap env.loads = [] := by
    intro ts
    induction ts with
    | nil => rfl
    | cons t rest ih => simp [List.filterMap_cons, h, ih]
  have hflat : actionTypeNames.flatMap
      (fun t => (env.reFindIter t text).filterMap env.loads) = [] := by
    simp [hfm]
  rw [hflat]
  rfl

theorem tryTrunc_none (env : ParseEnv) (text : String) (sc : Char)
    (h : ∀ s, env.loads s = none) : tryTrunc env text sc = none := by
  unfold tryTrunc
  cases firstIdx sc text.toList 0 with
  | none => rfl
  | some s =>
    have : ∀ l : List String,
        (l.findSome? fun suf =>
          match env.loads (String.mk (text.toList.drop s) ++ suf) with
          | some (PyJson.jlist el) => some (PyJson.jdict [("actions", PyJson.jlist el)])
          | some (PyJson.jdict d) => some (PyJson.jdict d)
          | _ => none) = none := by
      intro l
      induction l with
      | nil => rfl
      | cons suf rest ih => simp [List.findSome?_cons, h, ih]
    exact this truncSuffixes

/-- C9: the Response Parser is total — every recovery strategy's failure is
handled internally — and when `json.loads` fails on every substring any
strategy tries, it returns the `{"actions": []}` intent. -/
theorem C9_parser_returns_empty_on_unparseable (env : ParseEnv) (content : String)
    (h : ∀ s, env.loads s = none) :
    parseResponse env content = emptyActionsIntent := by
  unfold parseResponse parseAttempts
  rw [tryDirect_none env _ h, tryPatterns_none env _ h, tryBrackets_none env _ _ _ h,
    tryBrackets_none env _ _ _ h, tryPerAction_none env _ h, tryTrunc_none env _ _ h,
    tryTrunc_none env _ _ h]
  rfl

/-- Witness for C9: a concrete environment in which nothing parses, and a
concrete unparseable input. -/
theorem C9_parser_returns_empty_on_unparseable_witness :
    parseResponse
      ⟨fun _ => none, fun _ _ => none, fun _ _ => [], fun s => s⟩
      "no json here at all" = emptyActionsIntent :=
  C9_parser_returns_empty_on_unparseable _ _ (fun _ => rfl)

/-! ## Admission Controller lemmas -/

theorem actionCost_nonneg (k : String) : 0 ≤ actionCost k := by
  unfold actionCost
  split_ifs <;> norm_num

theorem budgetStage_mem (cfg : TurnCfg) (fs : FilterState) (a b : Action) :
    b ∈ (budgetStage cfg fs a).admitted → b ∈ fs.admitted ∨ b = a := by
  unfold budgetStage
  dsimp only
  split_ifs with h
  · exact fun hb => Or.inl hb
  · intro hb
    dsimp only at hb
    rcases List.mem_append.mp hb with h1 | h2
    · exact Or.inl h1
    · exact Or.inr (List.mem_singleton.mp h2)

theorem zoneStage_mem (cfg : TurnCfg) (mz : ℕ) (fs : FilterState) (a b : Action) :
    b ∈ (zoneStage cfg mz fs a).admitted → b ∈ fs.admitted ∨ b = a := by
  unfold zoneStage
  dsimp only
  split_ifs with h1 h2
  · exact fun hb => Or.inl hb
  · intro hb
    have h' := budgetStage_mem cfg _ a b hb
    exact h'
  · exact fun hb => budgetStage_mem _ _ _ _ hb

theorem serviceStage_mem (cfg : TurnCfg) (mz : ℕ) (fs : FilterState) (a b : Action) :
    b ∈ (serviceStage cfg mz fs a).admitted → b ∈ fs.admitted ∨ b = a := by
  unfold serviceStage
  dsimp only
  split_ifs with h1 h2
  · exact fun hb => Or.inl hb
  · intro hb
    have h' := zoneStage_mem cfg mz _ a b hb
    exact h'
  · exact fun hb => zoneStage_mem _ _ _ _ _ hb

theorem utilityStage_mem (cfg : TurnCfg) (mz : ℕ) (fs : FilterState) (a b : Action) :
    b ∈ (utilityStage cfg mz fs a).admitted → b ∈ fs.admitted ∨ b = a := by
  unfold utilityStage
  dsimp only
  split_ifs with h1 h2
  · exact fun hb => Or.inl hb
  · intro hb
    have h' := serviceStage_mem cfg mz _ a b hb
    exact h'
  · exact fun hb => serviceStage_mem _ _ _ _ _ hb

theorem admitStep_mem (st : GovState) (cfg : TurnCfg) (mz : ℕ) (fs : FilterState)
    (a b : Action) :
    b ∈ (admitStep st cfg mz fs a).admitted →
      b ∈ fs.admitted ∨ (b = a ∧ actionOutOfBounds a = false ∧
        actionHitsWater st.waterCells a = false) := by
  unfold admitStep
  split_ifs with h1 h2 h3 h4
  · exact fun hb => Or.inl hb
  · exact fun hb => Or.inl hb
  · exact fun hb => Or.inl hb
  · exact fun hb => Or.inl hb
  · intro hb
    rcases utilityStage_mem _ _ _ _ _ hb with h | rfl
    · exact Or.inl h
    · exact Or.inr ⟨rfl, by simpa using h1, by simpa using h2⟩

theorem admitFold_mem (st : GovState) (cfg : TurnCfg) (mz : ℕ) (acts : List Action)
    (fs : FilterState) (b : Action) :
    b ∈ (acts.foldl (admitStep st cfg mz) fs).admitted →
      b ∈ fs.admitted ∨ (b ∈ acts ∧ actionOutOfBounds b = false ∧
        actionHitsWater st.waterCells b = false) := by
  induction acts generalizing fs with
  | nil => exact fun h => Or.inl h
  | cons a rest ih =>
    intro h
    rcases ih _ h with h1 | ⟨h2, h3, h4⟩
    · rcases admitStep_mem _ _ _ _ _ _ h1 with h5 | ⟨rfl, h6, h7⟩
      · exact Or.inl h5
      · exact Or.inr ⟨List.mem_cons_self _ _, h6, h7⟩
    · exact Or.inr ⟨List.mem_cons_of_mem _ h2, h3, h4⟩

/-- Every admitted action was proposed, is in bounds and avoids the
WaterSet. -/
theorem admitActions_mem (st : GovState) (cfg : TurnCfg) (acts : List Action)
    (b : Action) :
    b ∈ admitActions st cfg acts →
      b ∈ acts ∧ actionOutOfBounds b = false ∧
        actionHitsWater st.waterCells b = false := by
  intro h
  rcases admitFold_mem st cfg _ acts {} b h with h1 | h2
  · exact absurd h1 (List.not_mem_nil b)
  · exact h2

/-- C2: every proposed action referencing a coordinate outside
`[0,255]×[0,255]` (endpoints, corners, position, or interpolated road-line
points) is rejected by the Admission Controller and never submitted,
regardless of its kind. -/
theorem C2_out_of_bounds_rejected (st : GovState) (cfg : TurnCfg)
    (acts : List Action) (a : Action) (h : actionOutOfBounds a = true) :
    a ∉ admitActions st cfg acts := by
  intro hmem
  have hb := (admitActions_mem st cfg acts a hmem).2.1
  rw [h] at hb
  exact Bool.true_eq_false.mp hb

/-- Witness for C2: a utility placement at `(300, 10)` is rejected. -/
theorem C2_out_of_bounds_rejected_witness :
    outOfBoundsUtility ∉ admitActions {} ⟨50000, 0⟩ [outOfBoundsUtility] :=
  C2_out_of_bounds_rejected _ _ _ _ (by decide)

theorem normalize_zoneRectOverWater :
    normalizeAction zoneRectOverWater = zoneRectOverWater := by
  unfold normalizeAction normParams normZone normRoad normRound normClamp
    normTax zoneRectOverWater
  norm_num [show zoneAlias "Industrial" = "Industrial" from by decide,
    show ¬(("ZoneRect" : String) = "PlaceUtility") from by decide,
    show ¬(("ZoneRect" : String) = "SetTaxRates") from by decide,
    roundPair, clampZoneRect]

/-- C1 counterexample: the claim checks "the cells covered by a
zone/bulldoze rectangle", but `_action_coords` extracts only the two corner
coordinates of a rectangle.  With WaterSet = {(10,6)}, the zone rectangle
(5,5)–(15,8) covers the water cell (10,6) yet passes normalization and
admission unchanged. -/
theorem C1_water_rejection_counterexample :
    specRectCovered zoneRectOverWater.params ((10, 6) : Coord) = true ∧
    ((10, 6) : Coord) ∈ rectWaterState.waterCells ∧
    filterTurnActions rectWaterState ⟨50000, 0⟩ [zoneRectOverWater] =
      [zoneRectOverWater] := by
  refine ⟨by decide, by decide, ?_⟩
  unfold filterTurnActions
  rw [List.map_cons, List.map_nil, normalize_zoneRectOverWater]
  decide

/-- C1 amended: every proposed action any of whose extracted coordinates
(the `start`/`end`/`pos`/`min`/`max` fields plus interpolated points along
an axis-aligned road line — interior, non-corner cells of a zone/bulldoze
rectangle are not checked) intersects the WaterSet is rejected by the
Admission Controller before any backend call, and the RoadCellSet is
unchanged by the rejection; in particular, with WaterSet = {(10,10)} the
road line (5,10)–(15,10) is rejected and RoadCellSet stays unchanged. -/
theorem C1_water_rejection_amended :
    (∀ (st : GovState) (cfg : TurnCfg) (acts : List Action) (b : Action),
      b ∈ admitActions st cfg acts → actionHitsWater st.waterCells b = false) ∧
    admitActions waterScenarioState ⟨50000, 0⟩ [roadLineOverWater] = [] ∧
    (processResults waterScenarioState
        ((admitActions waterScenarioState ⟨50000, 0⟩ [roadLineOverWater]).map
          (fun a => (a, ActResult.success)))).roadCells =
      waterScenarioState.roadCells := by
  refine ⟨fun st cfg acts b hb => (admitActions_mem st cfg acts b hb).2.2,
    by decide, by decide⟩

/-- Witness for C1 (amended): an in-bounds, water-free zone action is
admitted, and the theorem yields that it avoids the (empty) WaterSet. -/
theorem C1_water_rejection_amended_witness :
    actionHitsWater (({} : GovState)).waterCells zoneRectOverWater = false :=
  C1_water_rejection_amended.1 {} ⟨50000, 0⟩ [zoneRectOverWater]
    zoneRectOverWater (by decide)

/-! ## Budget ledger lemmas -/

/-- The running-ledger invariant through the budget stage: the ledger equals
the sum of admitted costs and stays within the treasury. -/
theorem budgetStage_invariant (cfg : TurnCfg) (fs : FilterState) (a : Action)
    (h : fs.spentEstimate = (fs.admitted.map fun b => actionCost b.kind).sum ∧
      fs.spentEstimate ≤ cfg.treasury) :
    (budgetStage cfg fs a).spentEstimate =
      ((budgetStage cfg fs a).admitted.map fun b => actionCost b.kind).sum ∧
    (budgetStage cfg fs a).spentEstimate ≤ cfg.treasury := by
  unfold budgetStage
  dsimp only
  split_ifs with hb
  · exact h
  · refine ⟨?_, ?_⟩
    · rw [List.map_append, List.sum_append]
      simp [h.1]
    · show fs.spentEstimate + actionCost a.kind ≤ cfg.treasury
      rcases le_or_lt (actionCost a.kind) 0 with hc | hc
      · have hz : actionCost a.kind = 0 :=
          le_antisymm hc (actionCost_nonneg a.kind)
        rw [hz, add_zero]
        exact h.2
      · push_neg at hb
        have := hb hc
        linarith [h.1, h.2]

theorem zoneStage_invariant (cfg : TurnCfg) (mz : ℕ) (fs : FilterState) (a : Action)
    (h : fs.spentEstimate = (fs.admitted.map fun b => actionCost b.kind).sum ∧
      fs.spentEstimate ≤ cfg.treasury) :
    (zoneStage cfg mz fs a).spentEstimate =
      ((zoneStage cfg mz fs a).admitted.map fun b => actionCost b.kind).sum ∧
    (zoneStage cfg mz fs a).spentEstimate ≤ cfg.treasury := by
  unfold zoneStage
  dsimp only
  split_ifs with h1 h2
  · exact h
  · exact budgetStage_invariant cfg _ a h
  · exact budgetStage_invariant cfg _ a h

theorem serviceStage_invariant (cfg : TurnCfg) (mz : ℕ) (fs : FilterState)
    (a : Action)
    (h : fs.spentEstimate = (fs.admitted.map fun b => actionCost b.kind).sum ∧
      fs.spentEstimate ≤ cfg.treasury) :
    (serviceStage cfg mz fs a).spentEstimate =
      ((serviceStage cfg mz fs a).admitted.map fun b => actionCost b.kind).sum ∧
    (serviceStage cfg mz fs a).spentEstimate ≤ cfg.treasury := by
  unfold serviceStage
  dsimp only
  split_ifs with h1 h2
  · exact h
  · exact zoneStage_invariant cfg mz _ a h
  · exact zoneStage_invariant cfg mz _ a h

theorem utilityStage_invariant (cfg : TurnCfg) (mz : ℕ) (fs : FilterState)
    (a : Action)
    (h : fs.spentEstimate = (fs.admitted.map fun b => actionCost b.kind).sum ∧
      fs.spentEstimate ≤ cfg.treasury) :
    (utilityStage cfg mz fs a).spentEstimate =
      ((utilityStage cfg mz fs a).admitted.map fun b => actionCost b.kind).sum ∧
    (utilityStage cfg mz fs a).spentEstimate ≤ cfg.treasury := by
  unfold utilityStage
  dsimp only
  split_ifs with h1 h2
  · exact h
  · exact serviceStage_invariant cfg mz _ a h
  · exact serviceStage_invariant cfg mz _ a h

theorem admitStep_invariant (st : GovState) (cfg : TurnCfg) (mz : ℕ)
    (fs : FilterState) (a : Action)
    (h : fs.spentEstimate = (fs.admitted.map fun b => actionCost b.kind).sum ∧
      fs.spentEstimate ≤ cfg.treasury) :
    (admitStep st cfg mz fs a).spentEstimate =
      ((admitStep st cfg mz fs a).admitted.map fun b => actionCost b.kind).sum ∧
    (admitStep st cfg mz fs a).spentEstimate ≤ cfg.treasury := by
  unfold admitStep
  split_ifs with h1 h2 h3 h4
  · exact h
  · exact h
  · exact h
  · exact h
  · exact utilityStage_invariant cfg mz fs a h

theorem admitFold_invariant (st : GovState) (cfg : TurnCfg) (mz : ℕ)
    (acts : List Action) (fs : FilterState)
    (h : fs.spentEstimate = (fs.admitted.map fun b => actionCost b.kind).sum ∧
      fs.spentEstimate ≤ cfg.treasury) :
    (acts.foldl (admitStep st cfg mz) fs).spentEstimate =
      (((acts.foldl (admitStep st cfg mz) fs).admitted.map
        fun b => actionCost b.kind).sum) ∧
    (acts.foldl (admitStep st cfg mz) fs).spentEstimate ≤ cfg.treasury := by
  induction acts generalizing fs with
  | nil => exact h
  | cons a rest ih => exact ih _ (admitStep_invariant st cfg mz fs a h)

/-- C10: in every turn with a non-negative observed treasury, the sum of
the fixed approximate costs of all admitted actions (road line $200,
utility $600, service $1000, zoning/bulldoze/tax-setting $0, unknown kinds
$500) never exceeds that turn's treasury. -/
theorem C10_admitted_costs_bounded :
    actionCost "PlaceRoadLine" = 200 ∧ actionCost "PlaceUtility" = 600 ∧
    actionCost "PlaceService" = 1000 ∧ actionCost "ZoneRect" = 0 ∧
    actionCost "BulldozeRect" = 0 ∧ actionCost "SetTaxRates" = 0 ∧
    (∀ k : String, k ≠ "PlaceRoadLine" → k ≠ "ZoneRect" → k ≠ "PlaceUtility" →
      k ≠ "PlaceService" → k ≠ "BulldozeRect" → k ≠ "SetTaxRates" →
      actionCost k = 500) ∧
    (∀ (st : GovState) (cfg : TurnCfg) (acts : List Action),
      0 ≤ cfg.treasury →
        ((admitActions st cfg acts).map fun a => actionCost a.kind).sum ≤
          cfg.treasury) := by
  refine ⟨by decide, by decide, by decide, by decide, by decide, by decide,
    ?_, ?_⟩
  · intro k h1 h2 h3 h4 h5 h6
    unfold actionCost
    rw [if_neg h1, if_neg h2, if_neg h3, if_neg h4, if_neg h5, if_neg h6]
  · intro st cfg acts h0
    have h := admitFold_invariant st cfg
      (maxZonesPerTurn cfg.treasDelta cfg.treasury) acts {} ⟨by simp, by simpa⟩
    unfold admitActions
    rw [← h.1]
    exact h.2

/-- Witness for C10: a concrete turn (treasury $700, a road line and a
service proposed) admits only the road line, and the admitted cost sum
$200 is within the treasury. -/
theorem C10_admitted_costs_bounded_witness :
    ((admitActions {} ⟨700, 0⟩
      [⟨"PlaceRoadLine", { start := some (5, 10), end_ := some (8, 10) }⟩,
       ⟨"PlaceService", { pos := some (6, 10), serviceType := some "Hospital" }⟩]).map
        fun a => actionCost a.kind).sum ≤ 700 :=
  C10_admitted_costs_bounded.2.2.2.2.2.2.2 {} ⟨700, 0⟩
    [⟨"PlaceRoadLine", { start := some (5, 10), end_ := some (8, 10) }⟩,
     ⟨"PlaceService", { pos := some (6, 10), serviceType := some "Hospital" }⟩]
    (by norm_num)

/-- C3: with treasury $400 the Critical-Infrastructure Injector injects
nothing (its floor is $500), the Admission Controller rejects any
`PlaceUtility` action on budget grounds, and in general a positive-cost
action passes the budget stage only when its cost fits within the treasury
minus the spent-so-far ledger. -/
theorem C3_treasury_floor_and_budget :
    (∀ (obs : Obs) (st : GovState) (llmActions : List Action),
      obs.treasury = 400 → injectCriticalUtilities obs st llmActions = []) ∧
    (∀ (st : GovState) (cfg : TurnCfg) (acts : List Action) (a : Action),
      cfg.treasury = 400 → a.kind = "PlaceUtility" →
        a ∉ admitActions st cfg acts) ∧
    (∀ (cfg : TurnCfg) (fs : FilterState) (a : Action),
      0 < actionCost a.kind →
      (budgetStage cfg fs a).admitted = fs.admitted ++ [a] →
        actionCost a.kind ≤ cfg.treasury - fs.spentEstimate) := by
  refine ⟨?_, ?_, ?_⟩
  · intro obs st llmActions h
    unfold injectCriticalUtilities
    rw [h, if_pos (by norm_num)]
  · intro st cfg acts a hcfg ha hmem
    have hinv := admitFold_invariant st cfg
      (maxZonesPerTurn cfg.treasDelta cfg.treasury) acts {}
      ⟨by simp, by rw [hcfg]; norm_num⟩
    have hsum : ((admitActions st cfg acts).map fun x => actionCost x.kind).sum ≤
        cfg.treasury := by
      have h2 := hinv.2
      rw [hinv.1] at h2
      exact h2
    have hnn : ∀ x ∈ (admitActions st cfg acts).map fun x => actionCost x.kind,
        0 ≤ x := by
      intro x hx
      rcases List.mem_map.mp hx with ⟨y, _, rfl⟩
      exact actionCost_nonneg y.kind
    have hle := List.single_le_sum hnn _
      (List.mem_map_of_mem (fun x => actionCost x.kind) hmem)
    have hcost : actionCost a.kind = 600 := by
      rw [ha]
      decide
    rw [hcost] at hle
    rw [hcfg] at hsum
    linarith
  · intro cfg fs a hc hadm
    unfold budgetStage at hadm
    dsimp only at hadm
    split_ifs at hadm with hb
    · exact absurd (congrArg List.length hadm) (by simp)
    · push_neg at hb
      linarith [hb hc]

/-- Witness for C3: at treasury $400 and low coverage the Injector yields
nothing, and a PlaceUtility proposal is rejected by the filter. -/
theorem C3_treasury_floor_and_budget_witness :
    injectCriticalUtilities ⟨400, 1/2, 1/2⟩
      { roadCells := {((5, 5) : Coord)} } [] = [] ∧
    (⟨"PlaceUtility", { pos := some (5, 5), utilityType := some "PowerPlant" }⟩ :
        Action) ∉
      admitActions { roadCells := {((5, 5) : Coord)} } ⟨400, 0⟩
        [⟨"PlaceUtility", { pos := some (5, 5), utilityType := some "PowerPlant" }⟩] :=
  ⟨C3_treasury_floor_and_budget.1 ⟨400, 1/2, 1/2⟩ _ [] rfl,
   C3_treasury_floor_and_budget.2.1 _ ⟨400, 0⟩ _ _ rfl rfl⟩

/-! ## Step characterization lemmas -/

theorem admitStep_pass (st : GovState) (cfg : TurnCfg) (mz : ℕ) (fs : FilterState)
    (a : Action)
    (hoob : actionOutOfBounds a = false)
    (hwater : actionHitsWater st.waterCells a = false)
    (htax : ¬(a.kind = "SetTaxRates" ∧ st.lastTaxRates = some (ratesOf a.params)))
    (hocc : ¬((a.kind = "PlaceUtility" ∨ a.kind = "PlaceService") ∧
      occupiedAt st.placedPositions a.params = true)) :
    admitStep st cfg mz fs a = utilityStage cfg mz fs a := by
  unfold admitStep
  rw [hoob, hwater]
  simp only [Bool.false_eq_true, if_false]
  rw [if_neg htax, if_neg hocc]

theorem admitStep_tax_redundant (st : GovState) (cfg : TurnCfg) (mz : ℕ)
    (fs : FilterState) (a : Action)
    (hoob : actionOutOfBounds a = false)
    (hwater : actionHitsWater st.waterCells a = false)
    (htax : a.kind = "SetTaxRates" ∧ st.lastTaxRates = some (ratesOf a.params)) :
    admitStep st cfg mz fs a = fs := by
  unfold admitStep
  rw [hoob, hwater]
  simp only [Bool.false_eq_true, if_false]
  rw [if_pos htax]

theorem utilityStage_skip (cfg : TurnCfg) (mz : ℕ) (fs : FilterState) (a : Action)
    (h : a.kind ≠ "PlaceUtility") :
    utilityStage cfg mz fs a = serviceStage cfg mz fs a := by
  unfold utilityStage
  rw [if_neg (fun hh => h hh.1)]

theorem serviceStage_skip (cfg : TurnCfg) (mz : ℕ) (fs : FilterState) (a : Action)
    (h : a.kind ≠ "PlaceService") :
    serviceStage cfg mz fs a = zoneStage cfg mz fs a := by
  unfold serviceStage
  rw [if_neg h]

theorem zoneStage_skip (cfg : TurnCfg) (mz : ℕ) (fs : FilterState) (a : Action)
    (h : a.kind ≠ "ZoneRect") :
    zoneStage cfg mz fs a = budgetStage cfg fs a := by
  unfold zoneStage
  rw [if_neg h]

theorem budgetStage_free (cfg : TurnCfg) (fs : FilterState) (a : Action)
    (h : actionCost a.kind = 0) :
    budgetStage cfg fs a =
      { fs with spentEstimate := fs.spentEstimate + actionCost a.kind,
                admitted := fs.admitted ++ [a] } := by
  unfold budgetStage
  dsimp only
  rw [if_neg (fun hh => by rw [h] at hh; exact absurd hh.1 (lt_irrefl 0))]

/-! ## Tax-redundancy lemmas -/

theorem actionCoords_setTax (r : TaxRates) :
    actionCoords (setTaxRatesAction r) = [] := rfl

theorem ratesOf_setTax (r : TaxRates) :
    ratesOf (setTaxRatesAction r).params = r := rfl

theorem actionOutOfBounds_setTax (r : TaxRates) :
    actionOutOfBounds (setTaxRatesAction r) = false := by
  unfold actionOutOfBounds
  apply decide_eq_false
  rintro ⟨c, hc, _⟩
  rw [actionCoords_setTax] at hc
  exact absurd hc (List.not_mem_nil c)

theorem actionHitsWater_setTax (w : Finset Coord) (r : TaxRates) :
    actionHitsWater w (setTaxRatesAction r) = false := by
  unfold actionHitsWater
  split_ifs
  · rfl
  · apply decide_eq_false
    rintro ⟨c, hc, _⟩
    rw [actionCoords_setTax] at hc
    exact absurd hc (List.not_mem_nil c)

/-- A fresh tax map (different from the stored TaxState) passes the whole
filter. -/
theorem admit_setTax_fresh (st : GovState) (cfg : TurnCfg) (r : TaxRates)
    (h : st.lastTaxRates ≠ some r) :
    admitActions st cfg [setTaxRatesAction r] = [setTaxRatesAction r] := by
  unfold admitActions
  simp only [List.foldl_cons, List.foldl_nil]
  rw [admitStep_pass st cfg _ _ _ (actionOutOfBounds_setTax r)
      (actionHitsWater_setTax st.waterCells r)
      (fun hh => h ((ratesOf_setTax r) ▸ hh.2))
      (fun hh => by
        rcases hh.1 with hk | hk <;>
          exact absurd hk (show ¬("SetTaxRates" : String) = _ by decide)),
    utilityStage_skip _ _ _ _ (show ¬("SetTaxRates" : String) = _ by decide),
    serviceStage_skip _ _ _ _ (show ¬("SetTaxRates" : String) = _ by decide),
    zoneStage_skip _ _ _ _ (show ¬("SetTaxRates" : String) = _ by decide),
    budgetStage_free _ _ _ (show actionCost "SetTaxRates" = 0 by decide)]
  rfl

/-- A tax map equal to the stored TaxState is skipped as redundant. -/
theorem admit_setTax_redundant (st : GovState) (cfg : TurnCfg) (r : TaxRates)
    (h : st.lastTaxRates = some r) :
    admitActions st cfg [setTaxRatesAction r] = [] := by
  unfold admitActions
  simp only [List.foldl_cons, List.foldl_nil]
  rw [admitStep_tax_redundant st cfg _ _ _ (actionOutOfBounds_setTax r)
    (actionHitsWater_setTax st.waterCells r) ⟨rfl, by rw [ratesOf_setTax]; exact h⟩]

/-- A successfully applied `SetTaxRates` stores its map as the TaxState. -/
theorem processResult_setTax_success (st : GovState) (r : TaxRates) :
    (processResult st (setTaxRatesAction r) ActResult.success).lastTaxRates =
      some r := by
  unfold processResult
  dsimp only
  rw [if_pos (show (setTaxRatesAction r).kind = "SetTaxRates" from rfl)]
  rfl

/-- A failed action never updates the TaxState. -/
theorem processResult_error_taxState (st : GovState) (a : Action) (reason : String) :
    (processResult st a (ActResult.error reason)).lastTaxRates =
      st.lastTaxRates := by
  unfold processResult
  rcases hpos : a.params.pos with _ | pos <;> simp only [hpos] <;>
    split_ifs <;> rfl

/-- A successful non-tax action never updates the TaxState. -/
theorem processResult_success_taxState (st : GovState) (a : Action)
    (h : a.kind ≠ "SetTaxRates") :
    (processResult st a ActResult.success).lastTaxRates = st.lastTaxRates := by
  unfold processResult
  rcases hpos : a.params.pos with _ | pos <;>
    rcases hs : a.params.start with _ | s <;>
    rcases he : a.params.end_ with _ | e <;>
    simp only [hpos, hs, he] <;>
    rw [if_neg h] <;>
    split_ifs <;>
    rfl

/-- C5: submitting the same tax-rate map in two consecutive turns admits
and submits the first `SetTaxRates` action and rejects the second as
redundant; the stored TaxState is updated only by a successfully applied
`SetTaxRates`, so a map differing from the last successfully applied one
is never rejected by the redundancy check. -/
theorem C5_tax_redundancy (st : GovState) (cfg cfg2 : TurnCfg) (r : TaxRates)
    (h : st.lastTaxRates ≠ some r) :
    admitActions st cfg [setTaxRatesAction r] = [setTaxRatesAction r] ∧
    (processResults st
      [(setTaxRatesAction r, ActResult.success)]).lastTaxRates = some r ∧
    admitActions (processResults st [(setTaxRatesAction r, ActResult.success)])
      cfg2 [setTaxRatesAction r] = [] ∧
    (∀ (st' : GovState) (a : Action) (reason : String),
      (processResult st' a (ActResult.error reason)).lastTaxRates =
        st'.lastTaxRates) ∧
    (∀ (st' : GovState) (a : Action), a.kind ≠ "SetTaxRates" →
      (processResult st' a ActResult.success).lastTaxRates =
        st'.lastTaxRates) := by
  have hps : processResults st [(setTaxRatesAction r, ActResult.success)] =
      processResult st (setTaxRatesAction r) ActResult.success := rfl
  refine ⟨admit_setTax_fresh st cfg r h, ?_, ?_, processResult_error_taxState,
    processResult_success_taxState⟩
  · rw [hps]
    exact processResult_setTax_success st r
  · exact admit_setTax_redundant _ cfg2 r
      (by rw [hps]; exact processResult_setTax_success st r)

/-- Witness for C5: from a fresh session, the 9%-everywhere map is admitted
on the first turn and rejected as redundant on the second. -/
theorem C5_tax_redundancy_witness :
    admitActions {} ⟨50000, 0⟩
      [setTaxRatesAction ⟨9/100, 9/100, 9/100, 9/100⟩] =
      [setTaxRatesAction ⟨9/100, 9/100, 9/100, 9/100⟩] ∧
    admitActions
      (processResults {}
        [(setTaxRatesAction ⟨9/100, 9/100, 9/100, 9/100⟩, ActResult.success)])
      ⟨50000, 0⟩ [setTaxRatesAction ⟨9/100, 9/100, 9/100, 9/100⟩] = [] :=
  ⟨(C5_tax_redundancy {} ⟨50000, 0⟩ ⟨50000, 0⟩ ⟨9/100, 9/100, 9/100, 9/100⟩
      (fun hh => Option.noConfusion hh)).1,
   (C5_tax_redundancy {} ⟨50000, 0⟩ ⟨50000, 0⟩ ⟨9/100, 9/100, 9/100, 9/100⟩
      (fun hh => Option.noConfusion hh)).2.2.1⟩

/-! ## Spatial-spread lemmas -/

theorem manhattan_nonneg (p q : Coord) : 0 ≤ manhattan p q :=
  add_nonneg (abs_nonneg _) (abs_nonneg _)

theorem minFold_nonneg (p : Coord) (rs : List Coord) (acc : ℤ) (h : 0 ≤ acc) :
    0 ≤ rs.foldl (fun acc r2 => min acc (manhattan p r2)) acc := by
  induction rs generalizing acc with
  | nil => exact h
  | cons r rest ih =>
    exact ih _ (le_min h (manhattan_nonneg p r))

theorem minDistTo_nonneg (refs : List Coord) (p : Coord) :
    0 ≤ minDistTo refs p := by
  cases refs with
  | nil => exact le_refl 0
  | cons r rs => exact minFold_nonneg p rs _ (manhattan_nonneg p r)

/-- The scan of `_pick_furthest_from` returns the initial best or a
candidate, its minimum distance dominates the running best, and it
dominates every candidate's minimum distance. -/
theorem pickBest_spec (refs : List Coord) (cs : List Coord) (best : Coord)
    (bestD : ℤ) (hpre : bestD ≤ minDistTo refs best) :
    (pickBest refs cs best bestD = best ∨ pickBest refs cs best bestD ∈ cs) ∧
    bestD ≤ minDistTo refs (pickBest refs cs best bestD) ∧
    ∀ c ∈ cs, minDistTo refs c ≤ minDistTo refs (pickBest refs cs best bestD) := by
  induction cs generalizing best bestD with
  | nil => exact ⟨Or.inl rfl, hpre, by simp⟩
  | cons c rest ih =>
    unfold pickBest
    dsimp only
    split_ifs with hd
    · obtain ⟨hmem, hge, hall⟩ := ih c (minDistTo refs c) (le_refl _)
      refine ⟨?_, le_trans (le_of_lt hd) hge, ?_⟩
      · rcases hmem with he | he
        · refine Or.inr ?_
          rw [he]
          exact List.mem_cons_self _ _
        · exact Or.inr (List.mem_cons_of_mem _ he)
      · intro x hx
        rcases List.mem_cons.mp hx with rfl | hx'
        · exact hge
        · exact hall x hx'
    · obtain ⟨hmem, hge, hall⟩ := ih best bestD hpre
      refine ⟨?_, hge, ?_⟩
      · rcases hmem with he | he
        · exact Or.inl he
        · exact Or.inr (List.mem_cons_of_mem _ he)
      · intro x hx
        rcases List.mem_cons.mp hx with rfl | hx'
        · push_neg at hd
          exact le_trans hd hge
        · exact hall x hx'

theorem getD_mem (l : List Coord) (n : ℕ) (d : Coord) (h : n < l.length) :
    l.getD n d ∈ l := by
  rw [List.getD_eq_getElem l d h]
  exact List.getElem_mem h

/-- The pick is always one of the candidates. -/
theorem pickFurthestFrom_mem (refs cands : List Coord) (h : cands ≠ []) :
    pickFurthestFrom refs cands ∈ cands := by
  unfold pickFurthestFrom
  split_ifs with hr
  · exact getD_mem _ _ _
      (Nat.div_lt_self (List.length_pos.mpr h) (by norm_num))
  · obtain ⟨c0, cs, rfl⟩ := List.exists_cons_of_ne_nil h
    simp only [List.headD_cons]
    have hspec := pickBest_spec refs (c0 :: cs) c0 (-1)
      (le_trans (by norm_num) (minDistTo_nonneg refs c0))
    rcases hspec.1 with he | he
    · rw [he]
      exact List.mem_cons_self _ _
    · exact he

/-- With reference positions present, the pick maximizes the minimum
Manhattan distance to them over the candidate list. -/
theorem pickFurthestFrom_spec (refs cands : List Coord) (h1 : refs ≠ [])
    (h2 : cands ≠ []) :
    pickFurthestFrom refs cands ∈ cands ∧
    ∀ c ∈ cands, minDistTo refs c ≤
      minDistTo refs (pickFurthestFrom refs cands) := by
  refine ⟨pickFurthestFrom_mem refs cands h2, ?_⟩
  unfold pickFurthestFrom
  rw [if_neg h1]
  obtain ⟨c0, cs, rfl⟩ := List.exists_cons_of_ne_nil h2
  simp only [List.headD_cons]
  exact (pickBest_spec refs (c0 :: cs) c0 (-1)
    (le_trans (by norm_num) (minDistTo_nonneg refs c0))).2.2

theorem injectLoop_mem (refs : List Coord) :
    ∀ (n : ℕ) (avail : List Coord), n ≤ avail.length →
      (∀ p ∈ (injectLoop refs n avail).1, p ∈ avail) ∧
      (∀ p ∈ (injectLoop refs n avail).2, p ∈ avail) := by
  intro n
  induction n with
  | zero =>
    intro avail _
    unfold injectLoop
    exact ⟨fun p hp => absurd hp (List.not_mem_nil p), fun p hp => hp⟩
  | succ m ih =>
    intro avail h
    have havail : avail ≠ [] := by
      intro he
      rw [he] at h
      simp at h
    have hp0 : pickFurthestFrom refs avail ∈ avail :=
      pickFurthestFrom_mem refs avail havail
    have hlen : m ≤ (avail.erase (pickFurthestFrom refs avail)).length := by
      rw [List.length_erase_of_mem hp0]
      omega
    obtain ⟨ih1, ih2⟩ := ih (avail.erase (pickFurthestFrom refs avail)) hlen
    unfold injectLoop
    dsimp only
    constructor
    · intro p hp
      rcases List.mem_cons.mp hp with rfl | hp'
      · exact hp0
      · exact List.mem_of_mem_erase (ih1 p hp')
    · intro p hp
      exact List.mem_of_mem_erase (ih2 p hp)

theorem mem_availableRoadList (st : GovState) (p : Coord) :
    p ∈ availableRoadList st ↔ p ∈ st.roadCells \ st.placedPositions :=
  Finset.mem_sort pairLe

/-- Every injected action is a `PlaceUtility` whose position is drawn from
`RoadCellSet \ OccupiedSet`. -/
theorem injectCriticalUtilities_mem (obs : Obs) (st : GovState)
    (llmActions : List Action) :
    ∀ a ∈ injectCriticalUtilities obs st llmActions,
      a.kind = "PlaceUtility" ∧
      ∃ p ∈ st.roadCells \ st.placedPositions,
        a.params.pos = some ((p.1 : ℚ), (p.2 : ℚ)) := by
  intro a ha
  unfold injectCriticalUtilities at ha
  dsimp only at ha
  split_ifs at ha with h1 h2 h3 h4
  all_goals
    first
      | exact absurd ha (List.not_mem_nil a)
      | skip
  all_goals
    simp only [List.mem_append, List.mem_map, List.mem_singleton] at ha
  all_goals
    first
      | (rcases ha with ⟨p, hp1, rfl⟩ | rfl
         · first
             | exact ⟨rfl, p, (mem_availableRoadList st p).mp
                 ((injectLoop_mem st.waterTowerPositions _ _
                   (min_le_right _ _)).1 p hp1), rfl⟩
             | exact absurd hp1 (List.not_mem_nil p)
         · refine ⟨rfl, pickFurthestFrom [] _, ?_, rfl⟩
           first
             | exact (mem_availableRoadList st _).mp
                 ((injectLoop_mem st.waterTowerPositions _ _
                   (min_le_right _ _)).2 _
                   (pickFurthestFrom_mem [] _ (by assumption)))
             | exact (mem_availableRoadList st _).mp
                 (pickFurthestFrom_mem [] _ (by assumption)))
      | (rcases ha with ⟨p, hp1, rfl⟩
         exact ⟨rfl, p, (mem_availableRoadList st p).mp
           ((injectLoop_mem st.waterTowerPositions _ _
             (min_le_right _ _)).1 p hp1), rfl⟩)

theorem availableRoad_scenario1 :
    availableRoadList { roadCells := {((5, 5) : Coord)} } = [((5, 5) : Coord)] := by
  unfold availableRoadList
  rw [show ({((5, 5) : Coord)} : Finset Coord) \ (∅ : Finset Coord) =
    {((5, 5) : Coord)} from Finset.sdiff_empty]
  exact Finset.sort_singleton pairLe _

theorem availableRoad_scenario2 :
    availableRoadList
      { roadCells := {((5, 5) : Coord)},
        placedPositions := {((5, 5) : Coord)} } = [] := by
  unfold availableRoadList
  rw [show ({((5, 5) : Coord)} : Finset Coord) \ {((5, 5) : Coord)} =
    (∅ : Finset Coord) from Finset.sdiff_self _]
  exact Finset.sort_empty pairLe

theorem inject_scenario1 :
    injectCriticalUtilities ⟨5000, 9/10, 3/10⟩
      { roadCells := {((5, 5) : Coord)} } [] = [waterTowerAction (5, 5)] := by
  unfold injectCriticalUtilities
  rw [availableRoad_scenario1]
  norm_num
  rfl

theorem inject_scenario2 :
    injectCriticalUtilities ⟨5000, 9/10, 3/10⟩
      { roadCells := {((5, 5) : Coord)},
        placedPositions := {((5, 5) : Coord)} } [] = [] := by
  unfold injectCriticalUtilities
  rw [availableRoad_scenario2]
  norm_num

/-- C6: injected placements are drawn from `RoadCellSet \ OccupiedSet` and
`_pick_furthest_from` maximizes the minimum Manhattan distance to the
recorded same-kind installations; in the scenario RoadCellSet = {(5,5)},
OccupiedSet = {} with ample treasury the Injector places a WaterTower at
(5,5), and with OccupiedSet = {(5,5)} it yields nothing. -/
theorem C6_injector_spread :
    (∀ (obs : Obs) (st : GovState) (llmActions : List Action),
      ∀ a ∈ injectCriticalUtilities obs st llmActions,
        a.kind = "PlaceUtility" ∧
        ∃ p ∈ st.roadCells \ st.placedPositions,
          a.params.pos = some ((p.1 : ℚ), (p.2 : ℚ))) ∧
    (∀ refs cands : List Coord, refs ≠ [] → cands ≠ [] →
      pickFurthestFrom refs cands ∈ cands ∧
      ∀ c ∈ cands, minDistTo refs c ≤
        minDistTo refs (pickFurthestFrom refs cands)) ∧
    injectCriticalUtilities ⟨5000, 9/10, 3/10⟩
      { roadCells := {((5, 5) : Coord)} } [] = [waterTowerAction (5, 5)] ∧
    injectCriticalUtilities ⟨5000, 9/10, 3/10⟩
      { roadCells := {((5, 5) : Coord)},
        placedPositions := {((5, 5) : Coord)} } [] = [] :=
  ⟨injectCriticalUtilities_mem, pickFurthestFrom_spec, inject_scenario1,
    inject_scenario2⟩

/-- Witness for C6: the spatial-spread pick at a concrete input — with one
recorded WaterTower at (0,0) and candidates (1,0) and (9,9), the pick is a
candidate and maximizes the minimum Manhattan distance. -/
theorem C6_injector_spread_witness :
    pickFurthestFrom [((0, 0) : Coord)] [((1, 0) : Coord), (9, 9)] ∈
      [((1, 0) : Coord), (9, 9)] ∧
    ∀ c ∈ [((1, 0) : Coord), (9, 9)],
      minDistTo [((0, 0) : Coord)] c ≤
        minDistTo [((0, 0) : Coord)]
          (pickFurthestFrom [((0, 0) : Coord)] [((1, 0) : Coord), (9, 9)]) :=
  C6_injector_spread.2.1 [((0, 0) : Coord)] [((1, 0) : Coord), (9, 9)]
    (by simp) (by simp)

/-! ## Fallback Generator lemmas -/

theorem actionHitsWater_fallbackRoad (w : Finset Coord) (y : ℤ) :
    actionHitsWater w (fallbackRoadAction y) =
      actionHitsWater w (roadProbeAction y) := rfl

theorem availableRoad_fallbackCounterState :
    availableRoadList
      { waterCells := {((110, 95) : Coord)},
        roadCells := {((50, 50) : Coord)} } = [((50, 50) : Coord)] := by
  unfold availableRoadList
  rw [show ({((50, 50) : Coord)} : Finset Coord) \ (∅ : Finset Coord) =
    {((50, 50) : Coord)} from Finset.sdiff_empty]
  exact Finset.sort_singleton pairLe _

theorem availableRoad_fallbackZoneState :
    availableRoadList { waterCells := {((100, 96) : Coord)} } = [] := by
  unfold availableRoadList
  rw [show ((∅ : Finset Coord) \ (∅ : Finset Coord)) = (∅ : Finset Coord) from
    Finset.sdiff_empty]
  exact Finset.sort_empty pairLe

/-- C4 counterexample, refuting both conjuncts of the claim.  First: with
zero proposer actions, treasury $5000 (above the $500 floor), both
coverages at 90%, and the frontier road row blocked by known water at
(110, 95), the Fallback Generator yields no action at all.  Second: with
known water at (100, 96) — on the zoning row, not the road row — the
generator yields a zoning action that intersects the WaterSet (only the
road row is water-checked). -/
theorem C4_fallback_counterexample :
    ((500 : ℚ) ≤ (⟨5000, 9/10, 9/10⟩ : Obs).treasury ∧
      generateFallbackActions ⟨5000, 9/10, 9/10⟩
        { waterCells := {((110, 95) : Coord)},
          roadCells := {((50, 50) : Coord)} } = ([], 95)) ∧
    (actionHitsWater ({((100, 96) : Coord)} : Finset Coord)
        (fallbackZoneAction "ResidentialLow" 96) = true ∧
      fallbackZoneAction "ResidentialLow" 96 ∈
        (generateFallbackActions ⟨5000, 9/10, 9/10⟩
          { waterCells := {((100, 96) : Coord)} }).1) := by
  refine ⟨⟨by norm_num, ?_⟩, by decide, ?_⟩
  · have hwater :
        actionHitsWater ({((110, 95) : Coord)} : Finset Coord)
          (roadProbeAction 95) = true := by decide
    unfold generateFallbackActions
    rw [availableRoad_fallbackCounterState]
    norm_num [hwater]
  · have hprobe :
        actionHitsWater ({((100, 96) : Coord)} : Finset Coord)
          (roadProbeAction 95) = false := by decide
    unfold generateFallbackActions
    rw [availableRoad_fallbackZoneState]
    norm_num [hprobe]

/-- C4 amended: when the proposer supplies zero actions, the treasury is at
or above the $500 floor, water coverage is below 80% and an unoccupied road
cell exists, the Fallback Generator yields at least one action; the
frontier road segment it yields never intersects the WaterSet (the segment
and its zoning are skipped when the road row would); the utility and
zoning actions it yields are not themselves water-checked by the
generator. -/
theorem C4_fallback_amended (obs : Obs) (st : GovState)
    (h1 : 500 ≤ obs.treasury) (h2 : obs.waterCoverage < 8/10)
    (h3 : availableRoadList st ≠ []) :
    (generateFallbackActions obs st).1 ≠ [] ∧
    (∀ a ∈ (generateFallbackActions obs st).1, a.kind = "PlaceRoadLine" →
      actionHitsWater st.waterCells a = false) := by
  unfold generateFallbackActions
  dsimp only
  rw [if_neg (show ¬obs.treasury < 500 by linarith),
    if_pos (show obs.waterCoverage < 8/10 ∧ availableRoadList st ≠ [] ∧
      obs.treasury ≥ 200 from ⟨h2, h3, by linarith⟩)]
  dsimp only
  split_ifs
  all_goals
    refine ⟨by simp, ?_⟩
  all_goals
    intro a ha hkind
  all_goals
    simp only [List.mem_append, List.mem_cons, List.mem_singleton,
      List.not_mem_nil, or_false] at ha
  all_goals
    first
      | (rcases ha with (rfl | rfl) | rfl | rfl | rfl
         · exact absurd hkind
             (show ¬("PlaceUtility" : String) = "PlaceRoadLine" by decide)
         · exact absurd hkind
             (show ¬("PlaceUtility" : String) = "PlaceRoadLine" by decide)
         · rw [actionHitsWater_fallbackRoad]
           exact ‹st.nextRoadY < 200 ∧ actionHitsWater st.waterCells
             (roadProbeAction st.nextRoadY) = false›.2
         · exact absurd hkind
             (show ¬("ZoneRect" : String) = "PlaceRoadLine" by decide)
         · exact absurd hkind
             (show ¬("ZoneRect" : String) = "PlaceRoadLine" by decide))
      | (rcases ha with rfl | rfl | rfl | rfl
         · exact absurd hkind
             (show ¬("PlaceUtility" : String) = "PlaceRoadLine" by decide)
         · rw [actionHitsWater_fallbackRoad]
           exact ‹st.nextRoadY < 200 ∧ actionHitsWater st.waterCells
             (roadProbeAction st.nextRoadY) = false›.2
         · exact absurd hkind
             (show ¬("ZoneRect" : String) = "PlaceRoadLine" by decide)
         · exact absurd hkind
             (show ¬("ZoneRect" : String) = "PlaceRoadLine" by decide))
      | (rcases ha with rfl | rfl
         · exact absurd hkind
             (show ¬("PlaceUtility" : String) = "PlaceRoadLine" by decide)
         · exact absurd hkind
             (show ¬("PlaceUtility" : String) = "PlaceRoadLine" by decide))
      | (rcases ha with rfl
         exact absurd hkind
           (show ¬("PlaceUtility" : String) = "PlaceRoadLine" by decide))

/-- Witness for C4 (amended): with treasury $5000, water coverage 30% and a
free road cell at (5,5), the Fallback Generator yields at least one
action. -/
theorem C4_fallback_amended_witness :
    (generateFallbackActions ⟨5000, 9/10, 3/10⟩
      { roadCells := {((5, 5) : Coord)} }).1 ≠ [] :=
  (C4_fallback_amended ⟨5000, 9/10, 3/10⟩ { roadCells := {((5, 5) : Coord)} }
    (by norm_num) (by norm_num)
    (by rw [availableRoad_scenario1]; exact List.cons_ne_nil _ _)).1

end Megacity
